import Mathlib

/-!
Shallow embedding of `convert_spreadsheets_to_csv.py` (openelections-data-al).

The script normalizes county-level Alabama election spreadsheets into one
long-format CSV.  We embed the cell data model, the Python string/regex
operations the script relies on (`str.title`, `str.replace`, and the three
regular expressions it compiles), the per-file reshaping paths
(`process_contest_title_excel_file`, `process_blank_header_excel_file`,
`process_csv_file`), the shared normalization (`normalizeOfficesAndCandidates`,
`populateOfficesAndDistricts`, `identifyOfficeAndDistrict`,
`identifyCandidateAndParty`, `stripCellsDropEmptyRows`) and the directory
driver (`process_election_directory`).

Conventions of the embedding:
* a pandas cell is `Cell`: `na` models NaN / missing, `Cell.s` a string,
  `Cell.num` a number (the script only compares and copies numbers, so `Int`
  suffices);
* character classes (`\w`, `\s`, `\d`, casing) are modelled over ASCII, which
  is the alphabet of the data this script handles;
* a Python exception that the script does not catch is `Except.error`
  (the run aborts, no output file is written); `pure`/`Except.ok` is a
  completed step.
-/

/-- A spreadsheet / dataframe cell: NaN, a string, or a number. -/
inductive Cell where
  | na : Cell
  | s (v : String) : Cell
  | num (v : Int) : Cell
deriving DecidableEq, Repr

/-! ## ASCII character model: Python `str.title`, `\w`, `\s`, `\d` -/

/-- The 26 ASCII letter pairs (lowercase, uppercase). -/
def caseTable : List (Char × Char) :=
  [('a', 'A'), ('b', 'B'), ('c', 'C'), ('d', 'D'), ('e', 'E'), ('f', 'F'),
   ('g', 'G'), ('h', 'H'), ('i', 'I'), ('j', 'J'), ('k', 'K'), ('l', 'L'),
   ('m', 'M'), ('n', 'N'), ('o', 'O'), ('p', 'P'), ('q', 'Q'), ('r', 'R'),
   ('s', 'S'), ('t', 'T'), ('u', 'U'), ('v', 'V'), ('w', 'W'), ('x', 'X'),
   ('y', 'Y'), ('z', 'Z')]

/-- `c` is an ASCII lowercase letter. -/
def isLowerA (c : Char) : Bool := caseTable.any (fun p => p.1 == c)

/-- `c` is an ASCII uppercase letter. -/
def isUpperA (c : Char) : Bool := caseTable.any (fun p => p.2 == c)

/-- `c` is cased (Python: `c.isupper() or c.islower()`), ASCII model. -/
def isCasedA (c : Char) : Bool := isLowerA c || isUpperA c

/-- Uppercase an ASCII letter, leave anything else unchanged. -/
def upperA (c : Char) : Char :=
  match caseTable.find? (fun p => p.1 == c) with
  | some p => p.2
  | none => c

/-- Lowercase an ASCII letter, leave anything else unchanged. -/
def lowerA (c : Char) : Char :=
  match caseTable.find? (fun p => p.2 == c) with
  | some p => p.1
  | none => c

/-- ASCII digit, the `\d` class of the script's regexes. -/
def isDigitA (c : Char) : Bool := '0' ≤ c && c ≤ '9'

/-- The `\w` word class of the script's regexes: `[A-Za-z0-9_]` (ASCII model). -/
def isWordA (c : Char) : Bool := isCasedA c || isDigitA c || c == '_'

/-- The `\s` whitespace class of the script's regexes (ASCII model). -/
def isSpaceA (c : Char) : Bool :=
  c == ' ' || c == '\t' || c == '\n' || c == '\x0b' || c == '\x0c' || c == '\r'

/-- One step of Python `str.title`: a cased character is uppercased when the
previous character was uncased and lowercased otherwise; uncased characters
pass through. -/
def titleChar (prevCased : Bool) (c : Char) : Char :=
  if isCasedA c then (if prevCased then lowerA c else upperA c) else c

/-- Python `str.title` over the character list, carrying the
"previous character was cased" flag. -/
def pyTitleAux (prevCased : Bool) : List Char → List Char
  | [] => []
  | c :: cs => titleChar prevCased c :: pyTitleAux (isCasedA c) cs

/-- Python `str.title` (`df.office.str.title()` applies it cell-wise). -/
def pyTitle (s : String) : String := ⟨pyTitleAux false s.data⟩

/-! ## The regex `re.compile(r'[ ,] (DISTRICT NO. )?(\d+)').search`
used by `populateOfficesAndDistricts` (line 257 of the source).
`search` returns the leftmost match; the pattern is a two-character
separator (space-or-comma, then a space), an optional literal
`DISTRICT NO` + any-character + space (the `.` of the pattern is the
regex any-character, which excludes newline), then a maximal digit run. -/

/-- Longest digit run at the head of `l`; `none` when empty (`\d+` needs one). -/
def digitRun1 (l : List Char) : Option (List Char) :=
  let ds := l.takeWhile isDigitA
  if ds.isEmpty then none else some ds

/-- Match the optional group `(DISTRICT NO. )` at the head of `l`, then `\d+`. -/
def tryDistrictGroup (l : List Char) : Option (List Char) :=
  match l with
  | 'D' :: 'I' :: 'S' :: 'T' :: 'R' :: 'I' :: 'C' :: 'T' :: ' ' :: 'N' :: 'O'
      :: dot :: ' ' :: rest =>
    if dot ≠ '\n' then digitRun1 rest else none
  | _ => none

/-- Try the full district pattern anchored at the head of `l`; returns the
captured digit run (`m.group(2)`).  The greedy optional group is tried first,
then the variant without it, exactly as the regex engine backtracks. -/
def tryDistrictAt (l : List Char) : Option (List Char) :=
  match l with
  | c0 :: ' ' :: rest =>
    if c0 == ' ' || c0 == ',' then
      match tryDistrictGroup rest with
      | some ds => some ds
      | none => digitRun1 rest
    else none
  | _ => none

/-- Leftmost match of the district pattern: returns `(m.span()[0], m.group(2))`. -/
def searchDistrictAux : List Char → Nat → Option (Nat × List Char)
  | [], _ => none
  | c :: rest, i =>
    match tryDistrictAt (c :: rest) with
    | some ds => some (i, ds)
    | none => searchDistrictAux rest (i + 1)

/-- `re.compile(r'[ ,] (DISTRICT NO. )?(\d+)').search(contest)`:
`some (start, digits)` on a match, where `start` is `m.span()[0]` and
`digits` is `m.group(2)`. -/
def searchDistrict (contest : String) : Option (Nat × String) :=
  match searchDistrictAux contest.data 0 with
  | some (i, ds) => some (i, ⟨ds⟩)
  | none => none

/-! ## The regex `re.compile('\s*\(\s*(\w)\s*\)\s*').search` and
`str.replace`, used by `identifyCandidateAndParty`. -/

/-- Match `\s*\(\s*(\w)\s*\)\s*` anchored at the head of `l`: returns
`(m.group(0), m.group(1))`.  Every `\s*` is greedy; since whitespace is
disjoint from `(`, `)` and `\w`, the greedy run is forced and no further
backtracking can occur. -/
def tryPartyAt (l : List Char) : Option (List Char × Char) :=
  let w1 := l.takeWhile isSpaceA
  match l.dropWhile isSpaceA with
  | '(' :: r2 =>
    let w2 := r2.takeWhile isSpaceA
    match r2.dropWhile isSpaceA with
    | c :: r4 =>
      if isWordA c then
        let w3 := r4.takeWhile isSpaceA
        match r4.dropWhile isSpaceA with
        | ')' :: r6 =>
          let w4 := r6.takeWhile isSpaceA
          some (w1 ++ '(' :: w2 ++ c :: w3 ++ ')' :: w4, c)
        | _ => none
      else none
    | [] => none
  | _ => none

/-- Leftmost match of the party pattern. -/
def searchPartyAux : List Char → Option (List Char × Char)
  | [] => none
  | c :: rest =>
    match tryPartyAt (c :: rest) with
    | some r => some r
    | none => searchPartyAux rest

/-- `re.compile('\s*\(\s*(\w)\s*\)\s*').search(origCandidate)`. -/
def searchParty (s : String) : Option (String × Char) :=
  match searchPartyAux s.data with
  | some (g0, c) => some (⟨g0⟩, c)
  | none => none

/-- Python `str.replace(pat, '')` with a nonempty pattern: delete every
non-overlapping occurrence of `pat`, scanning left to right.  The fuel
argument only drives structural recursion: every step consumes at least one
character, so with fuel `l.length` the fuel never runs out
(`pyReplaceAllF_fuel` below). -/
def pyReplaceAllF (pat : List Char) : Nat → List Char → List Char
  | _, [] => []
  | 0, l => l
  | fuel + 1, c :: rest =>
    if pat ≠ [] ∧ pat.isPrefixOf (c :: rest) then
      pyReplaceAllF pat fuel ((c :: rest).drop pat.length)
    else
      c :: pyReplaceAllF pat fuel rest

/-- The fuel is irrelevant as soon as it covers the list length. -/
theorem pyReplaceAllF_fuel (pat : List Char) :
    ∀ (fuel fuel' : Nat) (l : List Char), l.length ≤ fuel → l.length ≤ fuel' →
      pyReplaceAllF pat fuel l = pyReplaceAllF pat fuel' l := by
  intro fuel
  induction fuel with
  | zero =>
    intro fuel' l h _
    have hl : l = [] := List.length_eq_zero.mp (Nat.le_zero.mp h)
    subst hl
    cases fuel' <;> rfl
  | succ f ih =>
    intro fuel' l h h'
    cases l with
    | nil => cases fuel' <;> rfl
    | cons c rest =>
      cases fuel' with
      | zero => simp at h'
      | succ f' =>
        rw [pyReplaceAllF, pyReplaceAllF]
        by_cases hp : pat ≠ [] ∧ pat.isPrefixOf (c :: rest)
        · rw [if_pos hp, if_pos hp]
          have hlen : ((c :: rest).drop pat.length).length ≤ rest.length := by
            simp only [List.length_drop, List.length_cons]
            have : 0 < pat.length := List.length_pos.mpr hp.1
            omega
          simp only [List.length_cons] at h h'
          exact ih f' ((c :: rest).drop pat.length) (by omega) (by omega)
        · rw [if_neg hp, if_neg hp]
          simp only [List.length_cons] at h h'
          rw [ih f' rest (by omega) (by omega)]

def pyReplaceAll (pat : List Char) (l : List Char) : List Char :=
  pyReplaceAllF pat l.length l

/-- Python `str.strip()` (ASCII whitespace model, kernel-friendly). -/
def pyStrip (s : String) : String :=
  ⟨((s.data.dropWhile isSpaceA).reverse.dropWhile isSpaceA).reverse⟩

/-- Python slicing `s[:n]` (by characters, kernel-friendly). -/
def pyTake (s : String) (n : Nat) : String := ⟨s.data.take n⟩


/-! ## The regex `re.compile('[\W]+[Dd]ist[\W]+').split`
used by `identifyOfficeAndDistrict`. -/

/-- Match `[\W]+[Dd]ist[\W]+` anchored at the head of `l`: both `[\W]+` runs
are greedy and forced (word and non-word characters are disjoint); returns the
remainder after the match. -/
def tryDistSepAt (l : List Char) : Option (List Char) :=
  let run1 := l.takeWhile (fun c => !isWordA c)
  if run1.isEmpty then none else
  match l.dropWhile (fun c => !isWordA c) with
  | d :: 'i' :: 's' :: 't' :: r2 =>
    if d == 'D' || d == 'd' then
      let run2 := r2.takeWhile (fun c => !isWordA c)
      if run2.isEmpty then none else some (r2.dropWhile (fun c => !isWordA c))
    else none
  | _ => none

theorem tryDistSepAt_length {l r : List Char} (h : tryDistSepAt l = some r) :
    r.length < l.length := by
  unfold tryDistSepAt at h
  by_cases h1 : (l.takeWhile (fun c => !isWordA c)).isEmpty
  · simp [h1] at h
  · simp only [h1, if_false] at h
    rcases hd : l.dropWhile (fun c => !isWordA c) with _ | ⟨d, tl⟩
    · rw [hd] at h; exact absurd h (by simp)
    · rw [hd] at h
      rcases tl with _ | ⟨c1, tl1⟩
      · exact absurd h (by simp)
      rcases tl1 with _ | ⟨c2, tl2⟩
      · by_cases hc : c1 = 'i' <;> simp [hc] at h
      rcases tl2 with _ | ⟨c3, r2⟩
      · by_cases hc : c1 = 'i' <;> by_cases hc2 : c2 = 's' <;> simp [hc, hc2] at h
      by_cases hc1 : c1 = 'i'
      swap
      · simp [hc1] at h
      by_cases hc2 : c2 = 's'
      swap
      · simp [hc1, hc2] at h
      by_cases hc3 : c3 = 't'
      swap
      · simp [hc1, hc2, hc3] at h
      subst hc1; subst hc2; subst hc3
      by_cases hD : (d == 'D' || d == 'd') = true
      swap
      · simp [hD] at h
      simp only [hD, if_true] at h
      by_cases h2 : (r2.takeWhile (fun c => !isWordA c)).isEmpty
      · simp [h2] at h
      simp only [h2, Bool.false_eq_true, if_false, Option.some.injEq] at h
      subst h
      have hr2 : (r2.dropWhile (fun c => !isWordA c)).length ≤ r2.length :=
        (List.dropWhile_sublist _).length_le
      have hdl : (d :: 'i' :: 's' :: 't' :: r2).length ≤ l.length := by
        rw [← hd]; exact (List.dropWhile_sublist _).length_le
      have hlpos : l ≠ [] := by
        intro he; subst he; simp [List.takeWhile] at h1
      rcases l with _ | ⟨c0, l0⟩
      · exact absurd rfl hlpos
      have hc0 : isWordA c0 = false := by
        by_contra hw
        have : (c0 :: l0).takeWhile (fun c => !isWordA c) = [] := by
          rw [List.takeWhile_cons]
          simp only [Bool.not_eq_true'] at hw ⊢
          simp [eq_true_of_ne_false hw]
        simp [this] at h1
      have hdrop : (c0 :: l0).dropWhile (fun c => !isWordA c)
          = l0.dropWhile (fun c => !isWordA c) := by
        rw [List.dropWhile_cons]
        simp [hc0]
      rw [hdrop] at hd
      have hdl0 : (d :: 'i' :: 's' :: 't' :: r2).length ≤ l0.length := by
        rw [← hd]; exact (List.dropWhile_sublist _).length_le
      simp only [List.length_cons] at hdl0 ⊢
      omega

/-- `re.compile('[\W]+[Dd]ist[\W]+').split(contest)` over characters: pieces
between non-overlapping leftmost matches.  The fuel argument only drives
structural recursion: every step consumes at least one character
(`tryDistSepAt_length`), so with fuel `l.length` the fuel never runs out
(`distSplitF_fuel` below). -/
def distSplitF (acc : List Char) : Nat → List Char → List (List Char)
  | _, [] => [acc.reverse]
  | 0, l => [acc.reverse ++ l]
  | fuel + 1, c :: rest =>
    match tryDistSepAt (c :: rest) with
    | some r => acc.reverse :: distSplitF [] fuel r
    | none => distSplitF (c :: acc) fuel rest

/-- The fuel is irrelevant as soon as it covers the list length. -/
theorem distSplitF_fuel :
    ∀ (fuel : Nat) (acc : List Char) (fuel' : Nat) (l : List Char),
      l.length ≤ fuel → l.length ≤ fuel' →
      distSplitF acc fuel l = distSplitF acc fuel' l := by
  intro fuel
  induction fuel with
  | zero =>
    intro acc fuel' l h _
    have hl : l = [] := List.length_eq_zero.mp (Nat.le_zero.mp h)
    subst hl
    cases fuel' <;> rfl
  | succ f ih =>
    intro acc fuel' l h h'
    cases l with
    | nil => cases fuel' <;> rfl
    | cons c rest =>
      cases fuel' with
      | zero => simp at h'
      | succ f' =>
        simp only [List.length_cons] at h h'
        cases hm : tryDistSepAt (c :: rest) with
        | some r =>
          have hr := tryDistSepAt_length hm
          simp only [List.length_cons] at hr
          simp only [distSplitF, hm]
          rw [ih [] f' r (by omega) (by omega)]
        | none =>
          simp only [distSplitF, hm]
          rw [ih (c :: acc) f' rest (by omega) (by omega)]

/-- `re.compile('[\W]+[Dd]ist[\W]+').split(contest)`. -/
def distSplit (contest : String) : List String :=
  (distSplitF [] contest.data.length contest.data).map (fun l => ⟨l⟩)

/-! ## Static lookup tables (`__init__`, lines 93-105) -/

/-- `self.office_map`: raw office label → canonical label. -/
def office_map : List (String × String) :=
  [("President And Vice President Of The United States", "President"),
   ("President Of The United States", "President"),
   ("United States Representative", "U.S. House"),
   ("US Rep", "U.S. House"),
   ("United States Senator", "U.S. Senate"),
   ("State Senator", "State Senate"),
   ("State Sen", "State Senate"),
   ("State Representative", "State House"),
   ("State Rep", "State House")]

/-- `self.candidate_map`. -/
def candidate_map : List (String × String) := [("Write-In", "Write-ins")]

/-- `self.valid_offices`: the fixed allow-list of statewide offices. -/
def valid_offices : List String :=
  ["President", "U.S. Senate", "U.S. House", "Governor", "Lieutenant Governor",
   "State Senate", "State House", "Attorney General", "Secretary of State",
   "State Treasurer"]

/-- `office_map[o] if o in office_map else o` (string level). -/
def officeMapApply (o : String) : String :=
  match office_map.lookup o with
  | some v => v
  | none => o

/-- `candidate_map[c] if c in candidate_map else c`, cell-wise: a non-string
cell is not a dict key and passes through. -/
def candidateMapCell (c : Cell) : Cell :=
  match c with
  | Cell.s v =>
    match candidate_map.lookup v with
    | some w => Cell.s w
    | none => Cell.s v
  | other => other

/-- `df.office.str.title()` cell-wise: pandas `.str` methods turn a
non-string cell into NaN. -/
def titleCell (c : Cell) : Cell :=
  match c with
  | Cell.s v => Cell.s (pyTitle v)
  | _ => Cell.na

/-- The office map applied cell-wise (a non-string cell is not a key). -/
def officeMapCell (c : Cell) : Cell :=
  match c with
  | Cell.s v => Cell.s (officeMapApply v)
  | other => other

/-- `df.office.isin(self.valid_offices)` for one cell. -/
def cellValidOffice (c : Cell) : Bool :=
  match c with
  | Cell.s v => valid_offices.contains v
  | _ => false

/-! ## Row records

`WRow` is the working dataframe row of the reshaping paths: the melt result
plus the `office`/`district` columns the script adds.  `contestTitle` is the
`'Contest Title'` column (present in the contest-title and CSV paths; unused
afterwards because only the six output columns are stored).  `OutRow` is the
six-column selection stored into `statewide_dict`; `SRow` is a row of the
statewide concatenation with its `county` tag. -/

structure WRow where
  contestTitle : Cell
  precinct : Cell
  office : Cell
  district : Cell
  party : Cell
  candidate : Cell
  votes : Cell
deriving DecidableEq, Repr

structure OutRow where
  precinct : Cell
  office : Cell
  district : Cell
  party : Cell
  candidate : Cell
  votes : Cell
deriving DecidableEq, Repr

structure SRow where
  county : String
  precinct : Cell
  office : Cell
  district : Cell
  party : Cell
  candidate : Cell
  votes : Cell
deriving DecidableEq, Repr

/-- `melted[['precinct', 'office', 'district', 'party', 'candidate', 'votes']]`. -/
def selectOutput (r : WRow) : OutRow :=
  ⟨r.precinct, r.office, r.district, r.party, r.candidate, r.votes⟩

/-! ## `stripCellsDropEmptyRows` (lines 314-319) -/

/-- Strip one cell: `x.strip()` for strings, then `'' → NaN`. -/
def stripCell (c : Cell) : Cell :=
  match c with
  | Cell.s v => let t := pyStrip v; if t = "" then Cell.na else Cell.s t
  | other => other

/-- `stripCellsDropEmptyRows` on a raw grid: strip every cell, drop rows that
consist only of NaN. -/
def stripCellsDropEmptyRows (g : List (List Cell)) : List (List Cell) :=
  (g.map (fun row => row.map stripCell)).filter
    (fun row => !(row.all (fun c => c == Cell.na)))

/-! ## `normalizeOfficesAndCandidates` (lines 266-281) -/

/-- `df.office = df.office.str.title()` then the office map, row-wise. -/
def normOfficeStep (r : WRow) : WRow :=
  { r with office := officeMapCell (titleCell r.office) }

/-- `df.candidate = df.candidate.map(normalize_pseudocandidates)`, row-wise. -/
def normCandidateStep (r : WRow) : WRow :=
  { r with candidate := candidateMapCell r.candidate }

/-- `normalizeOfficesAndCandidates`: title-case offices, map them through
`office_map`, drop rows whose office is not in `valid_offices`, then map
candidates through `candidate_map`. -/
def normalizeOfficesAndCandidates (t : List WRow) : List WRow :=
  (((t.map normOfficeStep).filter (fun r => cellValidOffice r.office)).map
    normCandidateStep)

/-- `Series.drop_duplicates()`: keep the first occurrence of each value, in
order. -/
def dedupFirstAux (seen : List Cell) : List Cell → List Cell
  | [] => []
  | c :: rest =>
    if seen.contains c then dedupFirstAux seen rest
    else c :: dedupFirstAux (c :: seen) rest

def dedupFirst (l : List Cell) : List Cell := dedupFirstAux [] l

/-! ## `populateOfficesAndDistricts` (lines 248-264) -/

/-- One iteration of the contest loop: on a match, set `district` to the digit
run and trim `office` to `contest[:m.span()[0]]` on every row whose office
equals the contest (`re.search` on a non-string raises `TypeError`, which
nothing catches). -/
def populateStep (t : List WRow) (contest : Cell) : Except String (List WRow) :=
  match contest with
  | Cell.s str =>
    match searchDistrict str with
    | some (i, digits) =>
      Except.ok (t.map (fun r =>
        if r.office == contest then
          { r with district := Cell.s digits, office := Cell.s (pyTake str i) }
        else r))
    | none => Except.ok t
  | _ => Except.error "TypeError: expected string or bytes-like object"

/-- `populateOfficesAndDistricts`: copy `Contest Title` into `office`, set
`district` to NaN, then run the contest loop over the distinct offices. -/
def populateOfficesAndDistricts (t : List WRow) : Except String (List WRow) :=
  let t := t.map (fun r => { r with office := r.contestTitle, district := Cell.na })
  let contests := dedupFirst (t.map (fun r => r.office))
  contests.foldlM populateStep t

/-! ## `identifyOfficeAndDistrict` (lines 283-299) -/

/-- `identifyOfficeAndDistrict`.  The split only happens for string contests
(`re.split` on anything else raises `TypeError`, swallowed by the bare
`except`, falling back to `(contest, None)`).  Unpacking a 3-or-more part
split raises `ValueError`, also swallowed, skipping the office-map lookup.
A 1-part (unmatched) split keeps `office = contest` and still performs the
office-map lookup. -/
def identifyOfficeAndDistrict (contest : Cell) : Cell × Option String :=
  match contest with
  | Cell.s str =>
    match distSplit str with
    | [office, district] => (Cell.s (officeMapApply office), some district)
    | [_] => (Cell.s (officeMapApply str), none)
    | _ => (contest, none)
  | other => (other, none)

/-! ## `identifyCandidateAndParty` (lines 301-311) -/

/-- `identifyCandidateAndParty`: NaN is skipped by the `pd.isnull` guard; a
string is searched for the party pattern and, on a match, every occurrence of
`m.group(0)` is deleted by `str.replace`; `re.search` on a number raises
`TypeError`, which nothing catches. -/
def identifyCandidateAndParty (origCandidate : Cell) :
    Except String (Cell × Option Char) :=
  match origCandidate with
  | Cell.na => Except.ok (Cell.na, none)
  | Cell.s str =>
    match searchParty str with
    | some (g0, p) => Except.ok (Cell.s ⟨pyReplaceAll g0.data str.data⟩, some p)
    | none => Except.ok (Cell.s str, none)
  | Cell.num n => Except.error "TypeError: expected string or bytes-like object"

/-! ## Grid helpers for the two Excel reshapers -/

/-- Positional cell access; pandas pads a rectangular frame with NaN. -/
def cellAt (row : List Cell) (j : Nat) : Cell := row.getD j Cell.na

/-- Width of the parsed sheet. -/
def gridWidth (g : List (List Cell)) : Nat := g.foldl (fun m row => max m row.length) 0

/-- `df.loc[[0]].ffill(axis=1)`: forward-fill a row left-to-right, NaN taking
the value of the nearest non-NaN cell to its left. -/
def ffillRow (last : Cell) : List Cell → List Cell
  | [] => []
  | c :: rest =>
    match c with
    | Cell.na => last :: ffillRow last rest
    | other => other :: ffillRow other rest

/-- `df.transpose()` of a `w`-column frame. -/
def transposeGrid (g : List (List Cell)) (w : Nat) : List (List Cell) :=
  (List.range w).map (fun i => g.map (fun row => cellAt row i))

/-! ## `process_contest_title_excel_file` (lines 161-183)

The first row is promoted to column labels and renamed
(`Party Code`/`Party` → `party`, `Candidate`/`Candidate Name` → `candidate`).
The `df.reindex(df.index.drop(0))` on line 166 discards its result, so the
header row is NOT removed and is melted along with the data rows.
`pd.melt` emits one block per value column (column-major), each block one row
per frame row. -/

/-- Rename one header label. -/
def renameHeaderCell (c : Cell) : Cell :=
  match c with
  | Cell.s "Party Code" => Cell.s "party"
  | Cell.s "Party" => Cell.s "party"
  | Cell.s "Candidate" => Cell.s "candidate"
  | Cell.s "Candidate Name" => Cell.s "candidate"
  | other => other

/-- Melt of the contest-title frame: id columns are the (first) columns
labelled `Contest Title`, `party`, `candidate`; every remaining column is a
precinct column. `rows` still includes the header row (see above). -/
def meltContestTitle (header : List Cell) (rows : List (List Cell))
    (ctIdx pIdx cIdx : Nat) : List WRow :=
  ((List.range header.length).filter
    (fun j => j ≠ ctIdx && j ≠ pIdx && j ≠ cIdx)).flatMap
    (fun j => rows.map (fun row =>
      { contestTitle := cellAt row ctIdx
        precinct := cellAt header j
        office := Cell.na
        district := Cell.na
        party := cellAt row pIdx
        candidate := cellAt row cIdx
        votes := cellAt row j }))

/-- `process_contest_title_excel_file` on the stripped grid: melt, drop rows
with NaN votes, `populateOfficesAndDistricts`, `normalizeOfficesAndCandidates`,
select the six output columns.  A missing `Contest Title`/`party`/`candidate`
column makes `pd.melt` raise `KeyError`. -/
def process_contest_title_excel_file (g : List (List Cell)) :
    Except String (List OutRow) :=
  match g with
  | [] => Except.error "IndexError"
  | header :: _ =>
    let renamed := header.map renameHeaderCell
    match renamed.indexOf? (Cell.s "Contest Title"),
        renamed.indexOf? (Cell.s "party"),
        renamed.indexOf? (Cell.s "candidate") with
    | some ctIdx, some pIdx, some cIdx =>
      let melted := meltContestTitle renamed g ctIdx pIdx cIdx
      let melted := melted.filter (fun r => r.votes ≠ Cell.na)
      match populateOfficesAndDistricts melted with
      | Except.ok populated =>
        Except.ok ((normalizeOfficesAndCandidates populated).map selectOutput)
      | Except.error e => Except.error e
    | _, _, _ => Except.error "KeyError"

/-! ## `process_blank_header_excel_file` (lines 188-246)

Row 0 (office labels) is forward-filled, the frame is transposed, the first
transposed row becomes the header `office, candidate, <precinct names...>`
and is dropped from the data; the remaining transposed rows (one per original
column) are melted over the precinct columns. -/

/-- One iteration of the blank-header contest loop: rows whose office equals
the contest get the split district and office, but only when the district half
is truthy (non-`None`, non-empty). -/
def blankContestStep (t : List WRow) (contest : Cell) : List WRow :=
  match identifyOfficeAndDistrict contest with
  | (office, some district) =>
    if district ≠ "" then
      t.map (fun r =>
        if r.office == contest then
          { r with district := Cell.s district, office := office }
        else r)
    else t
  | (_, none) => t

/-- One iteration of the candidate loop: `identifyCandidateAndParty` may raise
(`TypeError` on a numeric label); on a truthy party the rows whose candidate
equals the original label get the split party and candidate. -/
def blankCandidateStep (t : List WRow) (origCandidate : Cell) :
    Except String (List WRow) :=
  match identifyCandidateAndParty origCandidate with
  | Except.ok (candidate, some party) =>
    Except.ok (t.map (fun r =>
      if r.candidate == origCandidate then
        { r with party := Cell.s (String.mk [party]), candidate := candidate }
      else r))
  | Except.ok (_, none) => Except.ok t
  | Except.error e => Except.error e

/-- `melted.loc[melted["precinct"] == 'CALCULATED TOTALS', 'precinct'] = 'Total'`. -/
def renameCalculatedTotals (t : List WRow) : List WRow :=
  t.map (fun r =>
    if r.precinct == Cell.s "CALCULATED TOTALS" then
      { r with precinct := Cell.s "Total" }
    else r)

/-- `process_blank_header_excel_file` on the stripped grid. -/
def process_blank_header_excel_file (g : List (List Cell)) :
    Except String (List OutRow) :=
  match g with
  | [] => Except.error "IndexError"
  | row0 :: rest =>
    let filled := ffillRow Cell.na row0
    let G := filled :: rest
    if G.length < 2 then Except.error "IndexError" else
    let T := transposeGrid G (gridWidth G)
    match T with
    | [] => Except.error "IndexError"
    | t0 :: dataRows =>
      let header := (t0.set 0 (Cell.s "office")).set 1 (Cell.s "candidate")
      let melted := ((List.range header.length).filter (fun j => 2 ≤ j)).flatMap
        (fun j => dataRows.map (fun row =>
          { contestTitle := Cell.na
            precinct := cellAt header j
            office := cellAt row 0
            district := Cell.na
            party := Cell.s ""
            candidate := cellAt row 1
            votes := cellAt row j : WRow }))
      let melted := melted.filter (fun r => r.votes ≠ Cell.na)
      let contests := dedupFirst (melted.map (fun r => r.office))
      let afterOffices := contests.foldl blankContestStep melted
      let candidates := dedupFirst (afterOffices.map (fun r => r.candidate))
      match candidates.foldlM blankCandidateStep afterOffices with
      | Except.ok afterCandidates =>
        Except.ok ((normalizeOfficesAndCandidates
          (renameCalculatedTotals afterCandidates)).map selectOutput)
      | Except.error e => Except.error e

/-! ## `process_excel_file` (lines 140-155): the layout classifier -/

inductive Layout where
  | contestTitle
  | blankHeader
  | unrecognized
deriving DecidableEq, Repr

/-- The branch on the first cell of the stripped sheet. -/
def layoutOf (firstCell : Cell) : Layout :=
  if firstCell == Cell.s "Contest Title" then Layout.contestTitle
  else if firstCell == Cell.na || cellValidOffice firstCell then Layout.blankHeader
  else Layout.unrecognized

/-- `df.iloc[0, 0]` of the stripped sheet (raises on an empty frame). -/
def firstCellOf (g : List (List Cell)) : Option Cell :=
  match g with
  | [] => none
  | row :: _ => some (cellAt row 0)

/-- `process_excel_file`: strip the sheet, dispatch on the first cell.
`Except.ok none` is the "Not yet able to process this county" skip: a
diagnostic is printed and no table is stored. -/
def process_excel_file (g : List (List Cell)) :
    Except String (Option (List OutRow)) :=
  let df := stripCellsDropEmptyRows g
  match firstCellOf df with
  | none => Except.error "IndexError"
  | some firstCell =>
    match layoutOf firstCell with
    | Layout.contestTitle =>
      match process_contest_title_excel_file df with
      | Except.ok t => Except.ok (some t)
      | Except.error e => Except.error e
    | Layout.blankHeader =>
      match process_blank_header_excel_file df with
      | Except.ok t => Except.ok (some t)
      | Except.error e => Except.error e
    | Layout.unrecognized => Except.ok none

/-! ## `process_csv_file` (lines 321-338) -/

/-- The ten positional columns assigned by
`df.columns = ['county', 'election_date', 'contest_number', 'candidate_number',
'votes', 'party', 'Contest Title', 'candidate', 'precinct', 'district_name']`. -/
structure CsvRow where
  county : Cell
  election_date : Cell
  contest_number : Cell
  candidate_number : Cell
  votes : Cell
  party : Cell
  contestTitle : Cell
  candidate : Cell
  precinct : Cell
  district_name : Cell
deriving DecidableEq, Repr

def mkCsvRow (row : List Cell) : CsvRow :=
  ⟨cellAt row 0, cellAt row 1, cellAt row 2, cellAt row 3, cellAt row 4,
   cellAt row 5, cellAt row 6, cellAt row 7, cellAt row 8, cellAt row 9⟩

/-- `stripCellsDropEmptyRows` on the ten-column frame. -/
def stripCsvRow (r : CsvRow) : CsvRow :=
  ⟨stripCell r.county, stripCell r.election_date, stripCell r.contest_number,
   stripCell r.candidate_number, stripCell r.votes, stripCell r.party,
   stripCell r.contestTitle, stripCell r.candidate, stripCell r.precinct,
   stripCell r.district_name⟩

def csvRowCells (r : CsvRow) : List Cell :=
  [r.county, r.election_date, r.contest_number, r.candidate_number, r.votes,
   r.party, r.contestTitle, r.candidate, r.precinct, r.district_name]

def stripCsvRows (rows : List CsvRow) : List CsvRow :=
  (rows.map stripCsvRow).filter
    (fun r => !((csvRowCells r).all (fun c => c == Cell.na)))

/-- `df["contest_number"] >= 100` for one cell: numbers compare numerically
and `NaN >= 100` is `False`. -/
def cellGe100 (c : Cell) : Bool :=
  match c with
  | Cell.num n => 100 ≤ n
  | _ => false

/-- `df.loc[df["contest_number"] >= 100]`. -/
def csvContestFilter (rows : List CsvRow) : List CsvRow :=
  rows.filter (fun r => cellGe100 r.contest_number)

/-- Working row for the shared populate/normalize stages; the four extra CSV
columns are dropped by the final six-column selection and feed nothing else. -/
def csvToWRow (r : CsvRow) : WRow :=
  { contestTitle := r.contestTitle
    precinct := r.precinct
    office := Cell.na
    district := Cell.na
    party := r.party
    candidate := r.candidate
    votes := r.votes }

/-- Lexicographic string comparison by code point (Python `str` ordering). -/
def charListLe : List Char → List Char → Bool
  | [], _ => true
  | _ :: _, [] => false
  | c :: cs, d :: ds => if c = d then charListLe cs ds else decide (c < d)

/-- Total order on cells used to model
`df.sort_values([...], ascending=True)`: NaN sorts last (pandas
`na_position='last'`), numbers numerically, strings lexicographically.
(pandas raises on a number/string comparison; the convention `num < s`
only matters for frames that would crash the script.) -/
def cellLe (a b : Cell) : Bool :=
  match a, b with
  | Cell.na, Cell.na => true
  | Cell.na, _ => false
  | _, Cell.na => true
  | Cell.num m, Cell.num n => m ≤ n
  | Cell.num _, Cell.s _ => true
  | Cell.s _, Cell.num _ => false
  | Cell.s u, Cell.s v => charListLe u.data v.data

/-- Lexicographic comparison of cell key lists. -/
def cellListLe : List Cell → List Cell → Bool
  | [], _ => true
  | _ :: _, [] => false
  | x :: xs, y :: ys => if x == y then cellListLe xs ys else cellLe x y

/-- The `sort_values(['precinct', 'office', 'district', 'party', 'candidate'],
ascending=True)` key of a working row. -/
def wSortKey (r : WRow) : List Cell :=
  [r.precinct, r.office, r.district, r.party, r.candidate]

def wRowLe (a b : WRow) : Bool := cellListLe (wSortKey a) (wSortKey b)

/-- Same key on an output row. -/
def outSortKey (r : OutRow) : List Cell :=
  [r.precinct, r.office, r.district, r.party, r.candidate]

def outRowLe (a b : OutRow) : Bool := cellListLe (outSortKey a) (outSortKey b)

/-- `process_csv_file` body after `pd.read_csv` (whose header/field-count
handling is the I/O boundary): the first grid row is consumed as the header,
every data row must have at most ten fields (short rows are NaN-padded, long
ones raise), columns are renamed positionally, then strip, the
`contest_number >= 100` filter (a vectorized comparison that raises
`TypeError` when the column holds a string), `populateOfficesAndDistricts`,
`normalizeOfficesAndCandidates`, the five-key sort, and the six-column
selection.  Note: unlike the two Excel paths there is no drop of NaN votes. -/
def process_csv_file (g : List (List Cell)) : Except String (List OutRow) :=
  match g with
  | [] => Except.error "EmptyDataError"
  | _ :: dataRows =>
    if dataRows.any (fun row => 10 < row.length) then
      Except.error "ParserError"
    else
    let rows := stripCsvRows (dataRows.map mkCsvRow)
    if rows.any (fun r => match r.contest_number with
        | Cell.s _ => true
        | _ => false) then
      Except.error "TypeError: '>=' not supported"
    else
    let rows := csvContestFilter rows
    match populateOfficesAndDistricts (rows.map csvToWRow) with
    | Except.ok populated =>
      let normalized := normalizeOfficesAndCandidates populated
      Except.ok ((normalized.insertionSort
        (fun a b => wRowLe a b = true)).map selectOutput)
    | Except.error e => Except.error e

/-! ## `process_election_directory` (lines 108-132) -/

/-- `re.match(r'\d{4}-(General|Primary)-(.*)\.(csv|xlsx|xls)', basename)`:
anchored at the start only, so trailing text after the extension is allowed;
the greedy `(.*)` makes the LAST `.csv`/`.xlsx`/`.xls` occurrence win, and the
alternation tries `csv`, then `xlsx`, then `xls` at that position.  Returns
`(county, extension)` = `(m.group(2), m.group(3))`. -/
def extAt (l : List Char) : Option (String × List Char) :=
  match l with
  | '.' :: 'c' :: 's' :: 'v' :: rest => some ("csv", rest)
  | '.' :: 'x' :: 'l' :: 's' :: 'x' :: rest => some ("xlsx", rest)
  | '.' :: 'x' :: 'l' :: 's' :: rest => some ("xls", rest)
  | _ => none

/-- Rightmost position where `\.(csv|xlsx|xls)` matches: returns the county
part before it and the extension. -/
def lastExtSplit : List Char → Option (List Char × String)
  | [] => none
  | c :: rest =>
    match lastExtSplit rest with
    | some (county, ext) => some (c :: county, ext)
    | none =>
      match extAt (c :: rest) with
      | some (ext, _) => some ([], ext)
      | none => none

def parseFileName (name : String) : Option (String × String) :=
  match name.data with
  | d1 :: d2 :: d3 :: d4 :: '-' :: rest =>
    if isDigitA d1 && isDigitA d2 && isDigitA d3 && isDigitA d4 then
      match rest with
      | 'G' :: 'e' :: 'n' :: 'e' :: 'r' :: 'a' :: 'l' :: '-' :: tail =>
        (lastExtSplit tail).map (fun p => (String.mk p.1, p.2))
      | 'P' :: 'r' :: 'i' :: 'm' :: 'a' :: 'r' :: 'y' :: '-' :: tail =>
        (lastExtSplit tail).map (fun p => (String.mk p.1, p.2))
      | _ => none
    else none
  | _ => none

/-- `self.statewide_dict[county] = table`: Python dict assignment keeps the
original insertion position of an existing key and appends a new one. -/
def dictInsert (d : List (String × List OutRow)) (county : String)
    (t : List OutRow) : List (String × List OutRow) :=
  if d.any (fun p => p.1 == county) then
    d.map (fun p => if p.1 == county then (county, t) else p)
  else d ++ [(county, t)]

/-- One file of the directory loop: non-matching names are skipped; `xlsx` and
`xls` go to the Excel processor (whose unrecognized-layout skip stores
nothing), `csv` to the CSV processor. -/
def directoryStep (d : List (String × List OutRow)) (file : String × List (List Cell)) :
    Except String (List (String × List OutRow)) :=
  match parseFileName file.1 with
  | some (county, ext) =>
    if ext == "xlsx" || ext == "xls" then
      match process_excel_file file.2 with
      | Except.ok (some t) => Except.ok (dictInsert d county t)
      | Except.ok none => Except.ok d
      | Except.error e => Except.error e
    else if ext == "csv" then
      match process_csv_file file.2 with
      | Except.ok t => Except.ok (dictInsert d county t)
      | Except.error e => Except.error e
    else Except.ok d
  | none => Except.ok d

/-- Tag a stored county row with its dict key (`reset_index` + the
`level_0 → county` rename). -/
def tagCounty (county : String) (r : OutRow) : SRow :=
  ⟨county, r.precinct, r.office, r.district, r.party, r.candidate, r.votes⟩

/-- `process_election_directory`: fold the directory's files (in discovery
order) into the county dict, then concatenate every county table in dict
order.  `pd.concat` on an empty dict raises `ValueError` (no output file). -/
def process_election_directory (files : List (String × List (List Cell))) :
    Except String (List SRow) :=
  match files.foldlM directoryStep [] with
  | Except.ok d =>
    if d.isEmpty then Except.error "ValueError: No objects to concatenate"
    else Except.ok (d.flatMap (fun p => p.2.map (tagCounty p.1)))
  | Except.error e => Except.error e

/-! ## Structure of `str.title` output

In a title-cased string a cased character is never followed by an uppercase
letter, and an uncased character is never followed by a lowercase letter.
This settles which strings can ever be office names after
`df.office.str.title()`. -/

theorem isLowerA_mem {c : Char} (h : isLowerA c = true) :
    c ∈ caseTable.map Prod.fst := by
  unfold isLowerA at h
  rw [List.any_eq_true] at h
  obtain ⟨p, hp, he⟩ := h
  rw [beq_iff_eq] at he
  subst he
  exact List.mem_map_of_mem _ hp

theorem isUpperA_mem {c : Char} (h : isUpperA c = true) :
    c ∈ caseTable.map Prod.snd := by
  unfold isUpperA at h
  rw [List.any_eq_true] at h
  obtain ⟨p, hp, he⟩ := h
  rw [beq_iff_eq] at he
  subst he
  exact List.mem_map_of_mem _ hp

theorem lowerA_notUpper {c : Char} (h : isCasedA c = true) :
    isCasedA (lowerA c) = true ∧ isUpperA (lowerA c) = false := by
  unfold isCasedA at h
  rw [Bool.or_eq_true] at h
  rcases h with h | h
  · have hm := isLowerA_mem h
    simp only [caseTable, List.map_cons, List.map_nil] at hm
    fin_cases hm <;> exact ⟨by decide, by decide⟩
  · have hm := isUpperA_mem h
    simp only [caseTable, List.map_cons, List.map_nil] at hm
    fin_cases hm <;> exact ⟨by decide, by decide⟩

theorem upperA_notLower {c : Char} (h : isCasedA c = true) :
    isCasedA (upperA c) = true ∧ isLowerA (upperA c) = false := by
  unfold isCasedA at h
  rw [Bool.or_eq_true] at h
  rcases h with h | h
  · have hm := isLowerA_mem h
    simp only [caseTable, List.map_cons, List.map_nil] at hm
    fin_cases hm <;> exact ⟨by decide, by decide⟩
  · have hm := isUpperA_mem h
    simp only [caseTable, List.map_cons, List.map_nil] at hm
    fin_cases hm <;> exact ⟨by decide, by decide⟩

theorem uncased_notLower {c : Char} (h : isCasedA c = false) :
    isUpperA c = false ∧ isLowerA c = false := by
  unfold isCasedA at h
  rw [Bool.or_eq_false_iff] at h
  exact ⟨h.2, h.1⟩

/-- The adjacency invariant of `str.title` output. -/
def caseR (x y : Char) : Prop :=
  (isCasedA x = true → isUpperA y = false) ∧
    (isCasedA x = false → isLowerA y = false)

instance : DecidableRel caseR := fun x y =>
  inferInstanceAs (Decidable ((isCasedA x = true → isUpperA y = false) ∧
    (isCasedA x = false → isLowerA y = false)))

theorem caseR_titleChar (b : Bool) (c d : Char) :
    caseR (titleChar b c) (titleChar (isCasedA c) d) := by
  unfold titleChar caseR
  by_cases hc : isCasedA c = true
  · simp only [hc, if_true]
    have hx : isCasedA (if b then lowerA c else upperA c) = true := by
      cases b
      · simpa using (upperA_notLower hc).1
      · simpa using (lowerA_notUpper hc).1
    refine ⟨fun _ => ?_, fun hx' => absurd hx (by simp [hx'])⟩
    by_cases hd : isCasedA d = true
    · simp only [hd, if_true]
      exact (lowerA_notUpper hd).2
    · simp only [hd, if_false]
      exact (uncased_notLower (by simpa using hd)).1
  · have hc' : isCasedA c = false := by simpa using hc
    simp only [hc', Bool.false_eq_true, if_false]
    refine ⟨fun hx' => absurd hx' (by simp [hc']), fun _ => ?_⟩
    by_cases hd : isCasedA d = true
    · simp only [hd, if_true]
      exact (upperA_notLower hd).2
    · simp only [hd, Bool.false_eq_true, if_false]
      exact (uncased_notLower (by simpa using hd)).2

theorem pyTitleAux_chain (b : Bool) (l : List Char) :
    List.Chain' caseR (pyTitleAux b l) := by
  induction l generalizing b with
  | nil => simp [pyTitleAux]
  | cons c cs ih =>
    rw [pyTitleAux, List.chain'_cons']
    refine ⟨fun y hy => ?_, ih (isCasedA c)⟩
    cases cs with
    | nil => simp [pyTitleAux] at hy
    | cons d ds =>
      rw [pyTitleAux] at hy
      simp only [List.head?_cons, Option.mem_def, Option.some.injEq] at hy
      subst hy
      exact caseR_titleChar b c d

theorem pyTitle_chain (s : String) : List.Chain' caseR (pyTitle s).data :=
  pyTitleAux_chain false s.data

/-- `str.title` can never output `'US Rep'` (the `S` would follow the cased
`U` and so be lowercased). -/
theorem pyTitle_ne_usRep (s : String) : pyTitle s ≠ "US Rep" := by
  intro h
  have hc := pyTitle_chain s
  rw [h] at hc
  have hd : ("US Rep" : String).data = ['U', 'S', ' ', 'R', 'e', 'p'] := rfl
  rw [hd] at hc
  simp only [List.chain'_cons, List.chain'_singleton, and_true] at hc
  exact absurd hc.1 (by decide)

/-- `str.title` can never output `'Secretary of State'` (the `o` follows a
space and so would be uppercased). -/
theorem pyTitle_ne_sos (s : String) : pyTitle s ≠ "Secretary of State" := by
  intro h
  have hc := pyTitle_chain s
  rw [h] at hc
  have hd : ("Secretary of State" : String).data =
      ['S', 'e', 'c', 'r', 'e', 't', 'a', 'r', 'y', ' ', 'o', 'f', ' ', 'S',
       't', 'a', 't', 'e'] := rfl
  rw [hd] at hc
  simp only [List.chain'_cons, List.chain'_singleton, and_true] at hc
  exact absurd hc.2.2.2.2.2.2.2.2.2.1 (by decide)

/-! ## Consequences for the Normalizer -/

/-- A successful `office_map` lookup returns one of the map's five values. -/
theorem officeMapApply_cases (w : String) :
    officeMapApply w = w ∨ officeMapApply w ∈ office_map.map Prod.snd := by
  unfold officeMapApply
  cases hl : office_map.lookup w with
  | none => exact Or.inl rfl
  | some v =>
    right
    rw [List.lookup_eq_some_iff] at hl
    obtain ⟨l₁, l₂, he, -⟩ := hl
    have : (w, v) ∈ office_map := by rw [he]; simp
    exact List.mem_map_of_mem Prod.snd this

/-- After title-casing and the office map, an office cell is never the string
`'Secretary of State'`: `str.title` cannot produce it and it is not an
`office_map` value.  (Consequently no output row ever carries that office,
and a second normalization pass cannot lose rows to it.) -/
theorem officeCell_ne_sos (c : Cell) :
    officeMapCell (titleCell c) ≠ Cell.s "Secretary of State" := by
  cases c with
  | s v =>
    simp only [titleCell, officeMapCell, ne_eq, Cell.s.injEq]
    rcases officeMapApply_cases (pyTitle v) with h | h
    · rw [h]
      exact pyTitle_ne_sos v
    · intro he
      rw [he] at h
      revert h
      decide
  | na => simp [titleCell, officeMapCell]
  | num n => simp [titleCell, officeMapCell]

/-- An allow-listed office other than `'Secretary of State'` is a fixed point
of the title-case + office-map step. -/
theorem officeStep_fixed {o : String} (ho : o ∈ valid_offices)
    (hne : o ≠ "Secretary of State") :
    officeMapCell (titleCell (Cell.s o)) = Cell.s o := by
  simp only [valid_offices] at ho
  fin_cases ho
  · decide
  · decide
  · decide
  · decide
  · decide
  · decide
  · decide
  · decide
  · exact absurd rfl hne
  · decide

/-- The candidate map never outputs its own key, so it is idempotent. -/
theorem candidateMapCell_idem (c : Cell) :
    candidateMapCell (candidateMapCell c) = candidateMapCell c := by
  cases c with
  | s v =>
    by_cases hv : v = "Write-In"
    · subst hv
      decide
    · have hl : candidate_map.lookup v = none := by
        simp only [candidate_map, List.lookup_eq_none_iff, List.mem_singleton]
        rintro p rfl
        simpa using hv
      simp [candidateMapCell, hl]
  | na => rfl
  | num n => rfl

/-- Every row of a normalized table: its office passed the allow-list filter,
is not `'Secretary of State'`, and its candidate is a candidate-map fixed
point. -/
theorem mem_normalize {r' : WRow} {t : List WRow}
    (h : r' ∈ normalizeOfficesAndCandidates t) :
    cellValidOffice r'.office = true ∧ r'.office ≠ Cell.s "Secretary of State" ∧
      candidateMapCell r'.candidate = r'.candidate := by
  simp only [normalizeOfficesAndCandidates, List.mem_map, List.mem_filter] at h
  obtain ⟨r'', ⟨⟨r, hr, hr''⟩, hvalid⟩, hc⟩ := h
  subst hc
  subst hr''
  refine ⟨hvalid, ?_, ?_⟩
  · simpa [normCandidateStep, normOfficeStep] using
      officeCell_ne_sos r.office
  · simp only [normCandidateStep]
    exact candidateMapCell_idem r.candidate

theorem map_eq_self_of {α : Type} {l : List α} {f : α → α}
    (h : ∀ a ∈ l, f a = a) : l.map f = l := by
  induction l with
  | nil => rfl
  | cons x xs ih =>
    simp only [List.map_cons]
    rw [h x (by simp), ih (fun a ha => h a (by simp [ha]))]

/-- A table whose rows are fixed points of every Normalizer step and all pass
the allow-list filter is left unchanged by the Normalizer. -/
theorem normalize_fixed {A : List WRow}
    (h1 : ∀ r ∈ A, normOfficeStep r = r)
    (h2 : ∀ r ∈ A, cellValidOffice r.office = true)
    (h3 : ∀ r ∈ A, normCandidateStep r = r) :
    normalizeOfficesAndCandidates A = A := by
  unfold normalizeOfficesAndCandidates
  rw [map_eq_self_of h1, List.filter_eq_self.mpr h2, map_eq_self_of h3]

theorem normOfficeStep_eq_self {r : WRow}
    (h : officeMapCell (titleCell r.office) = r.office) : normOfficeStep r = r := by
  cases r
  simp only [normOfficeStep] at h ⊢
  simp_all

theorem normCandidateStep_eq_self {r : WRow}
    (h : candidateMapCell r.candidate = r.candidate) : normCandidateStep r = r := by
  cases r
  simp only [normCandidateStep] at h ⊢
  simp_all

/-- C8: the Normalizer is idempotent.  A second pass title-cases offices that
are already allow-listed canonical names; every allow-listed office except
`'Secretary of State'` is a fixed point of title-casing and not an
`office_map` key, and `'Secretary of State'` can never be present in a
normalized table (it is not in the image of `str.title` nor an `office_map`
value), so the second pass keeps every row and changes nothing; the candidate
map is idempotent because it never outputs its own key. -/
theorem c8_normalizer_idempotent (t : List WRow) :
    normalizeOfficesAndCandidates (normalizeOfficesAndCandidates t) =
      normalizeOfficesAndCandidates t := by
  have hfix : ∀ r' ∈ normalizeOfficesAndCandidates t,
      normOfficeStep r' = r' ∧ cellValidOffice r'.office = true ∧
        normCandidateStep r' = r' := by
    intro r' hr'
    obtain ⟨hvalid, hsos, hcand⟩ := mem_normalize hr'
    have hofix : officeMapCell (titleCell r'.office) = r'.office := by
      cases ho : r'.office with
      | s o =>
        have hmem : o ∈ valid_offices := by
          have := hvalid
          rw [ho] at this
          simpa [cellValidOffice] using this
        have hne : o ≠ "Secretary of State" := by
          rintro rfl
          exact hsos ho
        exact officeStep_fixed hmem hne
      | na =>
        rw [ho] at hvalid
        simp [cellValidOffice] at hvalid
      | num n =>
        rw [ho] at hvalid
        simp [cellValidOffice] at hvalid
    exact ⟨normOfficeStep_eq_self hofix, hvalid, normCandidateStep_eq_self hcand⟩
  exact normalize_fixed (fun r hr => (hfix r hr).1) (fun r hr => (hfix r hr).2.1)
    (fun r hr => (hfix r hr).2.2)

/-! ## Claim C10 -/

/-- C10: the `office_map` entry `'US Rep' → 'U.S. House'` is unreachable in
`normalizeOfficesAndCandidates`: title-casing never produces the string
`'US Rep'` (it produces `'Us Rep'` for the label `'US Rep'`), offices are
title-cased before the map lookup, and a row whose raw office label is
`'US Rep'` is dropped by the allow-list filter instead of being mapped to
`'U.S. House'`. -/
theorem c10_usRep_entry_unreachable :
    (∀ s : String, pyTitle s ≠ "US Rep") ∧
    pyTitle "US Rep" = "Us Rep" ∧
    (∀ r : WRow, r.office = Cell.s "US Rep" →
      normalizeOfficesAndCandidates [r] = []) := by
  refine ⟨pyTitle_ne_usRep, rfl, fun r h => ?_⟩
  have hv : cellValidOffice (officeMapCell (titleCell (Cell.s "US Rep"))) = false := by
    rfl
  cases r
  simp only [] at h
  subst h
  simp [normalizeOfficesAndCandidates, normOfficeStep, List.filter, hv]

/-- Witness for C10 at a concrete row. -/
theorem c10_usRep_entry_unreachable_witness :
    normalizeOfficesAndCandidates
      [{ contestTitle := Cell.na, precinct := Cell.s "Precinct 1",
         office := Cell.s "US Rep", district := Cell.na, party := Cell.s "R",
         candidate := Cell.s "Jane Roe", votes := Cell.num 12 }] = [] :=
  c10_usRep_entry_unreachable.2.2 _ rfl

/-! ## Claim C2: the end-to-end CSV scenario -/

/-- The content of `2016-General-Jefferson.csv` as read: a header row (its
labels are irrelevant, `pd.read_csv` consumes it and the columns are renamed
positionally) and the single data row of the scenario. -/
def jeffersonGrid : List (List Cell) :=
  [[Cell.s "county", Cell.s "election_date", Cell.s "contest_number",
    Cell.s "candidate_number", Cell.s "votes", Cell.s "party",
    Cell.s "contest_title", Cell.s "candidate", Cell.s "precinct",
    Cell.s "district_name"],
   [Cell.s "Jefferson", Cell.s "2016-11-08", Cell.num 201, Cell.num 5,
    Cell.num 150, Cell.s "D", Cell.s "United States Senator",
    Cell.s "Jane Doe", Cell.s "Ward 1", Cell.s ""]]

/-- C2: a directory holding exactly the file `2016-General-Jefferson.csv`
with the single data row (contest_number 201, votes 150, party D,
Contest Title `United States Senator`, candidate `Jane Doe`, precinct
`Ward 1`, empty district_name) produces exactly one output row:
county Jefferson (parsed from the filename), precinct Ward 1, office
`U.S. Senate` (via the office map), empty district, party D, candidate
Jane Doe, votes 150. -/
theorem c2_end_to_end :
    process_election_directory [("2016-General-Jefferson.csv", jeffersonGrid)] =
      Except.ok [{ county := "Jefferson", precinct := Cell.s "Ward 1",
                   office := Cell.s "U.S. Senate", district := Cell.na,
                   party := Cell.s "D", candidate := Cell.s "Jane Doe",
                   votes := Cell.num 150 }] := by
  rfl

/-! ## Claim C3: the Contest-Title district splitter -/

/-- C3 as stated is false on the code: the pattern
`[ ,] (DISTRICT NO. )?(\d+)` is case-sensitive (`DISTRICT NO. ` only) and
requires the digits to follow the two-character separator directly, so
`'State Senate, District 15'` does NOT match — `populateOfficesAndDistricts`
leaves the office unsplit and the district NaN, where the claim promises
office `'State Senate'` and district `'15'`. -/
theorem c3_counterexample :
    searchDistrict "State Senate, District 15" = none ∧
    populateOfficesAndDistricts
      [{ contestTitle := Cell.s "State Senate, District 15",
         precinct := Cell.s "P", office := Cell.na, district := Cell.na,
         party := Cell.s "", candidate := Cell.s "A", votes := Cell.num 1 }] =
      Except.ok
        [{ contestTitle := Cell.s "State Senate, District 15",
           precinct := Cell.s "P",
           office := Cell.s "State Senate, District 15", district := Cell.na,
           party := Cell.s "", candidate := Cell.s "A", votes := Cell.num 1 }] ∧
    Cell.s "State Senate, District 15" ≠ Cell.s "State Senate" := by
  exact ⟨rfl, rfl, by decide⟩

/-- C3 amended: the splitter searches for the LEFTMOST occurrence (not a
trailing one) of: a space-or-comma followed by a space, optionally the
case-sensitive literal `DISTRICT NO. `, then a digit run; the digit run
becomes the district and the office is cut at the match start.  So
`'President'` and `'State Senate, District 15'` are left unsplit (the latter
because `District` is not the uppercase literal), while
`'State Senate, DISTRICT NO. 15'` splits into office `'State Senate'` and
district `'15'`, and `'U.S. Senate, 7 Extra'` splits at the interior match
into office `'U.S. Senate'` and district `'7'`. -/
theorem c3_amended :
    searchDistrict "President" = none ∧
    searchDistrict "State Senate, District 15" = none ∧
    searchDistrict "State Senate, DISTRICT NO. 15" = some (12, "15") ∧
    searchDistrict "U.S. Senate, 7 Extra" = some (11, "7") ∧
    populateOfficesAndDistricts
      [{ contestTitle := Cell.s "State Senate, DISTRICT NO. 15",
         precinct := Cell.s "P", office := Cell.na, district := Cell.na,
         party := Cell.s "", candidate := Cell.s "A", votes := Cell.num 1 }] =
      Except.ok
        [{ contestTitle := Cell.s "State Senate, DISTRICT NO. 15",
           precinct := Cell.s "P", office := Cell.s "State Senate",
           district := Cell.s "15", party := Cell.s "", candidate := Cell.s "A",
           votes := Cell.num 1 }] ∧
    populateOfficesAndDistricts
      [{ contestTitle := Cell.s "President", precinct := Cell.s "P",
         office := Cell.na, district := Cell.na, party := Cell.s "",
         candidate := Cell.s "A", votes := Cell.num 1 }] =
      Except.ok
        [{ contestTitle := Cell.s "President", precinct := Cell.s "P",
           office := Cell.s "President", district := Cell.na,
           party := Cell.s "", candidate := Cell.s "A", votes := Cell.num 1 }] := by
  exact ⟨rfl, rfl, rfl, rfl, rfl, rfl⟩

/-! ## Claim C4: the candidate/party splitter -/

/-- Modelled from the spec's words for comparison (claim C4, "the matched
parenthetical (with surrounding whitespace) is removed from the string"):
delete only the first occurrence of the matched text, i.e. the match itself. -/
def removeFirstOcc (pat : List Char) : List Char → List Char
  | [] => []
  | c :: rest =>
    if pat ≠ [] ∧ pat.isPrefixOf (c :: rest) then (c :: rest).drop pat.length
    else c :: removeFirstOcc pat rest

/-- The candidate/party splitter as the spec's sentence reads: remove the
matched parenthetical once. -/
def spec_identifyCandidateAndParty (label : String) : String × Option Char :=
  match searchParty label with
  | some (g0, p) => (⟨removeFirstOcc g0.data label.data⟩, some p)
  | none => (label, none)

/-- C4's general sentence is false on the code: `identifyCandidateAndParty`
deletes EVERY occurrence of the matched text (`str.replace` replaces all,
not just the match).  On `'a (R) b (R) c'` the match is `' (R) '`; the code
produces candidate `'abc'`, while removing only the matched parenthetical
would produce `'ab (R) c'`. -/
theorem c4_counterexample :
    identifyCandidateAndParty (Cell.s "a (R) b (R) c") =
      Except.ok (Cell.s "abc", some 'R') ∧
    spec_identifyCandidateAndParty "a (R) b (R) c" = ("ab (R) c", some 'R') ∧
    ("abc" : String) ≠ "ab (R) c" := by
  exact ⟨rfl, rfl, by decide⟩

/-- C4 amended: for the input `'John Smith (R)'` the splitter returns
candidate `'John Smith'` and party `'R'`; for `'Jane Doe'` it returns the
label with party unset; a missing (NaN) label is returned unchanged with
party unset; in general it searches for a parenthesized single-word-character
token surrounded by optional whitespace, takes the token as party, and
removes EVERY occurrence of the matched text (parenthetical with its
surrounding whitespace) from the label, as on `'a (R) b (R) c' → 'abc'`. -/
theorem c4_amended :
    identifyCandidateAndParty (Cell.s "John Smith (R)") =
      Except.ok (Cell.s "John Smith", some 'R') ∧
    identifyCandidateAndParty (Cell.s "Jane Doe") =
      Except.ok (Cell.s "Jane Doe", none) ∧
    identifyCandidateAndParty Cell.na = Except.ok (Cell.na, none) ∧
    identifyCandidateAndParty (Cell.s "") = Except.ok (Cell.s "", none) ∧
    identifyCandidateAndParty (Cell.s "a (R) b (R) c") =
      Except.ok (Cell.s "abc", some 'R') ∧
    searchParty "John Smith (R)" = some (" (R)", 'R') := by
  exact ⟨rfl, rfl, rfl, rfl, rfl, rfl⟩

/-! ## Claim C9: the Blank-Header office/district splitter -/

/-- Modelled from the spec's words for comparison (claim C9,
"the case-insensitive substring 'dist'"): the same separator pattern but with
all four letters case-insensitive. -/
def tryDistSepCIAt (l : List Char) : Option (List Char) :=
  let run1 := l.takeWhile (fun c => !isWordA c)
  if run1.isEmpty then none else
  match l.dropWhile (fun c => !isWordA c) with
  | d :: i :: s :: t :: r2 =>
    if (d == 'D' || d == 'd') && (i == 'I' || i == 'i') &&
        (s == 'S' || s == 's') && (t == 'T' || t == 't') then
      let run2 := r2.takeWhile (fun c => !isWordA c)
      if run2.isEmpty then none else some (r2.dropWhile (fun c => !isWordA c))
    else none
  | _ => none

theorem tryDistSepCIAt_length {l r : List Char} (h : tryDistSepCIAt l = some r) :
    r.length < l.length := by
  unfold tryDistSepCIAt at h
  by_cases h1 : (l.takeWhile (fun c => !isWordA c)).isEmpty
  · simp [h1] at h
  · simp only [h1, if_false] at h
    rcases hd : l.dropWhile (fun c => !isWordA c) with _ | ⟨d, tl⟩
    · rw [hd] at h; exact absurd h (by simp)
    · rw [hd] at h
      rcases tl with _ | ⟨c1, tl1⟩
      · exact absurd h (by simp)
      rcases tl1 with _ | ⟨c2, tl2⟩
      · exact absurd h (by simp)
      rcases tl2 with _ | ⟨c3, r2⟩
      · exact absurd h (by simp)
      by_cases hD : ((d == 'D' || d == 'd') && (c1 == 'I' || c1 == 'i') &&
          (c2 == 'S' || c2 == 's') && (c3 == 'T' || c3 == 't')) = true
      swap
      · simp [hD] at h
      simp only [hD, if_true] at h
      by_cases h2 : (r2.takeWhile (fun c => !isWordA c)).isEmpty
      · simp [h2] at h
      simp only [h2, Bool.false_eq_true, if_false, Option.some.injEq] at h
      subst h
      have hr2 : (r2.dropWhile (fun c => !isWordA c)).length ≤ r2.length :=
        (List.dropWhile_sublist _).length_le
      have hlpos : l ≠ [] := by
        intro he; subst he; simp [List.takeWhile] at h1
      rcases l with _ | ⟨c0, l0⟩
      · exact absurd rfl hlpos
      have hc0 : isWordA c0 = false := by
        by_contra hw
        have : (c0 :: l0).takeWhile (fun c => !isWordA c) = [] := by
          rw [List.takeWhile_cons]
          simp only [Bool.not_eq_true'] at hw ⊢
          simp [eq_true_of_ne_false hw]
        simp [this] at h1
      have hdrop : (c0 :: l0).dropWhile (fun c => !isWordA c)
          = l0.dropWhile (fun c => !isWordA c) := by
        rw [List.dropWhile_cons]
        simp [hc0]
      rw [hdrop] at hd
      have hdl0 : (d :: c1 :: c2 :: c3 :: r2).length ≤ l0.length := by
        rw [← hd]; exact (List.dropWhile_sublist _).length_le
      simp only [List.length_cons] at hdl0 ⊢
      omega

def specDistSplitF (acc : List Char) : Nat → List Char → List (List Char)
  | _, [] => [acc.reverse]
  | 0, l => [acc.reverse ++ l]
  | fuel + 1, c :: rest =>
    match tryDistSepCIAt (c :: rest) with
    | some r => acc.reverse :: specDistSplitF [] fuel r
    | none => specDistSplitF (c :: acc) fuel rest

/-- The split of the spec's sentence (fully case-insensitive `dist`). -/
def specDistSplit (contest : String) : List String :=
  (specDistSplitF [] contest.data.length contest.data).map (fun l => ⟨l⟩)

/-- C9's "case-insensitive substring 'dist'" is false on the code: the
pattern `[\W]+[Dd]ist[\W]+` only tolerates case on the leading letter, so the
all-caps contest `'State Senate, DIST 15'` is NOT split
(`identifyOfficeAndDistrict` returns it whole with no district), while the
spec-modelled case-insensitive splitter yields exactly the two parts the
claim promises. -/
theorem c9_counterexample :
    specDistSplit "State Senate, DIST 15" = ["State Senate", "15"] ∧
    distSplit "State Senate, DIST 15" = ["State Senate, DIST 15"] ∧
    identifyOfficeAndDistrict (Cell.s "State Senate, DIST 15") =
      (Cell.s "State Senate, DIST 15", none) := by
  exact ⟨rfl, rfl, rfl⟩

/-- C9 amended: the splitter splits on a non-word run, then `Dist` or `dist`
(only the leading letter is case-insensitive), then a non-word run.  When the
split yields exactly two parts the first becomes the office — mapped through
`office_map` when it is a known raw office name — and the second the
district; when it yields more than two parts the unpacking raises, the bare
`except` swallows the error (the run is not aborted) and the contest comes
back whole with the district unset and without the office-map lookup; a
non-string contest also takes the exception path. -/
theorem c9_amended :
    (∀ str a b, distSplit str = [a, b] →
      identifyOfficeAndDistrict (Cell.s str) =
        (Cell.s (officeMapApply a), some b)) ∧
    (∀ str, 2 < (distSplit str).length →
      identifyOfficeAndDistrict (Cell.s str) = (Cell.s str, none)) ∧
    (∀ c : Cell, (∀ v, c ≠ Cell.s v) → identifyOfficeAndDistrict c = (c, none)) ∧
    distSplit "State Senate Dist 15" = ["State Senate", "15"] ∧
    identifyOfficeAndDistrict (Cell.s "State Sen Dist 3") =
      (Cell.s "State Senate", some "3") ∧
    distSplit "A dist B dist C" = ["A", "B", "C"] ∧
    identifyOfficeAndDistrict (Cell.s "A dist B dist C") =
      (Cell.s "A dist B dist C", none) := by
  refine ⟨?_, ?_, ?_, rfl, rfl, rfl, rfl⟩
  · intro str a b h
    simp only [identifyOfficeAndDistrict, h]
  · intro str h
    simp only [identifyOfficeAndDistrict]
    rcases hs : distSplit str with _ | ⟨x, _ | ⟨y, _ | ⟨z, rest⟩⟩⟩ <;>
      rw [hs] at h <;> simp at h ⊢
  · intro c h
    cases c with
    | s v => exact absurd rfl (h v)
    | na => rfl
    | num n => rfl

/-- Witness for C9 (amended) at concrete inputs with the hypotheses
discharged. -/
theorem c9_amended_witness :
    identifyOfficeAndDistrict (Cell.s "State Senate Dist 15") =
      (Cell.s (officeMapApply "State Senate"), some "15") ∧
    identifyOfficeAndDistrict (Cell.s "A dist B dist C") =
      (Cell.s "A dist B dist C", none) ∧
    identifyOfficeAndDistrict (Cell.num 3) = (Cell.num 3, none) :=
  ⟨c9_amended.1 "State Senate Dist 15" "State Senate" "15" rfl,
   c9_amended.2.1 "A dist B dist C" (by decide),
   c9_amended.2.2.1 (Cell.num 3) (fun v h => by simp at h)⟩

/-! ## Claim C6: the layout classifier and the skip of unrecognized files -/

/-- `directoryStep` ignores a spreadsheet file whose layout is unrecognized. -/
theorem directoryStep_skip {name : String} {g : List (List Cell)}
    {county ext : String} {fc : Cell}
    (hparse : parseFileName name = some (county, ext))
    (hext : ext = "xlsx" ∨ ext = "xls")
    (hfc : firstCellOf (stripCellsDropEmptyRows g) = some fc)
    (hlay : layoutOf fc = Layout.unrecognized)
    (d : List (String × List OutRow)) :
    directoryStep d (name, g) = Except.ok d := by
  have hskip : process_excel_file g = Except.ok none := by
    simp only [process_excel_file, hfc, hlay]
  unfold directoryStep
  rw [hparse]
  rcases hext with h | h <;> subst h <;> simp [hskip]

/-- C6: on a spreadsheet file, the classifier selects the Contest-Title
strategy exactly when the first cell of the stripped grid is the literal
`'Contest Title'`, the Blank-Header strategy exactly when that cell is NaN or
an allow-listed office name, and otherwise the file is skipped: it
contributes no rows and a directory run behaves exactly as if the file were
absent (the run is not aborted). -/
theorem c6_classifier :
    (∀ c : Cell, layoutOf c = Layout.contestTitle ↔ c = Cell.s "Contest Title") ∧
    (∀ c : Cell, layoutOf c = Layout.blankHeader ↔
      (c = Cell.na ∨ cellValidOffice c = true)) ∧
    (∀ (g : List (List Cell)) (fc : Cell),
      firstCellOf (stripCellsDropEmptyRows g) = some fc →
      layoutOf fc = Layout.unrecognized →
      process_excel_file g = Except.ok none) ∧
    (∀ (pre post : List (String × List (List Cell))) name g county ext fc,
      parseFileName name = some (county, ext) →
      (ext = "xlsx" ∨ ext = "xls") →
      firstCellOf (stripCellsDropEmptyRows g) = some fc →
      layoutOf fc = Layout.unrecognized →
      process_election_directory (pre ++ (name, g) :: post) =
        process_election_directory (pre ++ post)) := by
  refine ⟨?_, ?_, ?_, ?_⟩
  · intro c
    unfold layoutOf
    by_cases h : c = Cell.s "Contest Title"
    · simp [h]
    · rw [if_neg (by simpa using h)]
      constructor
      · intro hb
        by_cases h2 : (c == Cell.na || cellValidOffice c) = true <;>
          simp [h2] at hb
      · intro hc
        exact absurd hc h
  · intro c
    unfold layoutOf
    by_cases h : c = Cell.s "Contest Title"
    · subst h
      simp [cellValidOffice, valid_offices]
    · rw [if_neg (by simpa using h)]
      by_cases h2 : (c == Cell.na || cellValidOffice c) = true
      · simp only [h2, if_true, true_iff]
        simpa using h2
      · simp only [h2, Bool.false_eq_true, if_false]
        constructor
        · intro hb
          cases hb
        · intro hb
          rcases hb with h3 | h3
          · exact absurd (by simp [h3]) h2
          · exact absurd (by simp [h3]) h2
  · intro g fc hfc hlay
    simp only [process_excel_file, hfc, hlay]
  · intro pre post name g county ext fc hparse hext hfc hlay
    unfold process_election_directory
    have hfold : (pre ++ (name, g) :: post).foldlM directoryStep [] =
        (pre ++ post).foldlM directoryStep [] := by
      rw [List.foldlM_append, List.foldlM_append]
      apply bind_congr
      intro d
      rw [List.foldlM_cons, directoryStep_skip hparse hext hfc hlay d]
      rfl
    rw [hfold]

/-- Witness for C6 at concrete inputs: an `.xls` file whose first cell is an
arbitrary unmatched string contributes nothing and leaves the rest of the
run intact. -/
theorem c6_classifier_witness :
    process_election_directory
      [("2016-General-Bibb.xls", [[Cell.s "Totally Different Layout"]]),
       ("2016-General-Jefferson.csv", jeffersonGrid)] =
      process_election_directory [("2016-General-Jefferson.csv", jeffersonGrid)] :=
  c6_classifier.2.2.2 [] [("2016-General-Jefferson.csv", jeffersonGrid)]
    "2016-General-Bibb.xls" [[Cell.s "Totally Different Layout"]] "Bibb" "xls"
    (Cell.s "Totally Different Layout") rfl (Or.inr rfl) rfl rfl

/-! ## Claim C7: the CSV contest filter and the five-key sort -/

theorem charListLe_total : ∀ xs ys : List Char,
    charListLe xs ys = true ∨ charListLe ys xs = true
  | [], ys => by left; cases ys <;> rfl
  | x :: xs, [] => Or.inr rfl
  | x :: xs, y :: ys => by
    by_cases hxy : x = y
    · subst hxy
      simpa [charListLe] using charListLe_total xs ys
    · have hyx : ¬ y = x := fun h => hxy h.symm
      simp only [charListLe, if_neg hxy, if_neg hyx, decide_eq_true_eq]
      exact lt_or_gt_of_ne hxy

theorem charListLe_antisymm : ∀ {xs ys : List Char},
    charListLe xs ys = true → charListLe ys xs = true → xs = ys
  | [], [], _, _ => rfl
  | [], _ :: _, _, h2 => by simp [charListLe] at h2
  | _ :: _, [], h1, _ => by simp [charListLe] at h1
  | x :: xs, y :: ys, h1, h2 => by
    by_cases hxy : x = y
    · subst hxy
      simp only [charListLe, if_pos rfl] at h1 h2
      rw [charListLe_antisymm h1 h2]
    · have hyx : ¬ y = x := fun h => hxy h.symm
      simp only [charListLe, if_neg hxy, if_neg hyx, decide_eq_true_eq] at h1 h2
      exact absurd h2 (lt_asymm h1)

theorem charListLe_trans : ∀ {xs ys zs : List Char},
    charListLe xs ys = true → charListLe ys zs = true →
    charListLe xs zs = true
  | [], _, zs, _, _ => by cases zs <;> rfl
  | _ :: _, [], _, h1, _ => by simp [charListLe] at h1
  | _ :: _, _ :: _, [], _, h2 => by simp [charListLe] at h2
  | x :: xs, y :: ys, z :: zs, h1, h2 => by
    by_cases hxy : x = y <;> by_cases hyz : y = z
    · subst hxy
      subst hyz
      simp only [charListLe, if_pos rfl] at h1 h2 ⊢
      exact charListLe_trans h1 h2
    · subst hxy
      simp only [charListLe, if_pos rfl, if_neg hyz] at h1 h2 ⊢
      exact h2
    · subst hyz
      simp only [charListLe, if_neg hxy] at h1 ⊢
      exact h1
    · simp only [charListLe, if_neg hxy, if_neg hyz,
        decide_eq_true_eq] at h1 h2
      have hxz : x < z := lt_trans h1 h2
      simp only [charListLe, if_neg (ne_of_lt hxz), decide_eq_true_eq]
      exact hxz

theorem cellLe_total (a b : Cell) : cellLe a b = true ∨ cellLe b a = true := by
  cases a with
  | na => cases b <;> simp [cellLe]
  | s u =>
    cases b with
    | na => simp [cellLe]
    | s v => exact charListLe_total u.data v.data
    | num n => simp [cellLe]
  | num m =>
    cases b with
    | na => simp [cellLe]
    | s v => simp [cellLe]
    | num n =>
      rcases Int.le_total m n with h | h
      · exact Or.inl (by simp [cellLe, h])
      · exact Or.inr (by simp [cellLe, h])

theorem cellLe_antisymm {a b : Cell} (h1 : cellLe a b = true)
    (h2 : cellLe b a = true) : a = b := by
  cases a <;> cases b <;>
    simp only [cellLe, decide_eq_true_eq, Bool.false_eq_true] at h1 h2
  · rfl
  · rename_i u v
    cases u with
    | mk l1 =>
      cases v with
      | mk l2 => exact congrArg Cell.s (congrArg String.mk
          (charListLe_antisymm h1 h2))
  · exact congrArg Cell.num (le_antisymm h1 h2)

theorem cellLe_trans {a b c : Cell} (h1 : cellLe a b = true)
    (h2 : cellLe b c = true) : cellLe a c = true := by
  cases a <;> cases b <;> cases c <;>
    simp only [cellLe, decide_eq_true_eq, Bool.false_eq_true] at h1 h2 ⊢ <;>
    try rfl
  · exact charListLe_trans h1 h2
  · exact le_trans h1 h2

theorem cellListLe_total : ∀ xs ys : List Cell,
    cellListLe xs ys = true ∨ cellListLe ys xs = true
  | [], ys => by
    left
    cases ys <;> rfl
  | x :: xs, [] => Or.inr rfl
  | x :: xs, y :: ys => by
    by_cases hxy : x = y
    · subst hxy
      simpa [cellListLe] using cellListLe_total xs ys
    · have hyx : ¬ y = x := fun h => hxy h.symm
      simp only [cellListLe, beq_iff_eq, hxy, hyx, if_false]
      exact cellLe_total x y

theorem cellListLe_trans : ∀ {xs ys zs : List Cell},
    cellListLe xs ys = true → cellListLe ys zs = true →
    cellListLe xs zs = true
  | [], ys, zs, _, _ => by cases zs <;> rfl
  | x :: xs, [], zs, h1, _ => by simp [cellListLe] at h1
  | x :: xs, y :: ys, [], _, h2 => by simp [cellListLe] at h2
  | x :: xs, y :: ys, z :: zs, h1, h2 => by
    by_cases hxy : x = y <;> by_cases hyz : y = z
    · subst hxy; subst hyz
      simp only [cellListLe, beq_self_eq_true, if_true] at h1 h2 ⊢
      exact cellListLe_trans h1 h2
    · subst hxy
      simp only [cellListLe, beq_self_eq_true, if_true, beq_iff_eq, hyz,
        if_false] at h1 h2 ⊢
      exact h2
    · subst hyz
      simp only [cellListLe, beq_iff_eq, hxy, if_false] at h1 ⊢
      exact h1
    · simp only [cellListLe, beq_iff_eq, hxy, hyz, if_false] at h1 h2
      by_cases hxz : x = z
      · subst hxz
        exact absurd (cellLe_antisymm h1 h2) hxy
      · simp only [cellListLe, beq_iff_eq, hxz, if_false]
        exact cellLe_trans h1 h2

instance : IsTotal WRow (fun a b => wRowLe a b = true) :=
  ⟨fun a b => cellListLe_total (wSortKey a) (wSortKey b)⟩

instance : IsTrans WRow (fun a b => wRowLe a b = true) :=
  ⟨fun _ _ _ h1 h2 => cellListLe_trans h1 h2⟩

/-- C7: the CSV reshaper's contest filter keeps a stripped row with a numeric
contest number exactly when that number is at least 100 (so every row below
100 is dropped and every row at or above 100 is kept), and the county table
stored by `process_csv_file` is sorted ascending by the key
(precinct, office, district, party, candidate). -/
theorem c7_csv_filter_and_sort :
    (∀ (rows : List CsvRow) (r : CsvRow) (n : Int), r ∈ rows →
      r.contest_number = Cell.num n →
      (r ∈ csvContestFilter rows ↔ 100 ≤ n)) ∧
    (∀ (g : List (List Cell)) (t : List OutRow),
      process_csv_file g = Except.ok t →
      List.Pairwise (fun a b => outRowLe a b = true) t) := by
  constructor
  · intro rows r n hr hn
    unfold csvContestFilter
    rw [List.mem_filter]
    unfold cellGe100
    rw [hn]
    simp [hr]
  · intro g t h
    cases g with
    | nil => cases h
    | cons header dataRows =>
      simp only [process_csv_file] at h
      split at h
      · cases h
      · split at h
        · cases h
        · split at h
          · injection h with h
            subst h
            apply List.Pairwise.map
            · intro a b hab
              exact hab
            · exact List.sorted_insertionSort (fun a b => wRowLe a b = true) _
          · cases h

/-- A one-row CSV frame used to witness C7's filter characterization. -/
def c7Row : CsvRow :=
  ⟨Cell.s "J", Cell.na, Cell.num 201, Cell.na, Cell.num 1, Cell.na, Cell.na,
   Cell.na, Cell.na, Cell.na⟩

/-- Witness for C7 at concrete inputs: membership of the contest filter both
ways, and the sortedness of a concrete stored table. -/
theorem c7_csv_filter_and_sort_witness :
    ((c7Row ∈ csvContestFilter [c7Row]) ↔ (100 : Int) ≤ 201) ∧
    List.Pairwise (fun a b => outRowLe a b = true)
      [(⟨Cell.s "Ward 1", Cell.s "U.S. Senate", Cell.na, Cell.s "D",
         Cell.s "Jane Doe", Cell.num 150⟩ : OutRow)] :=
  ⟨c7_csv_filter_and_sort.1 [c7Row] c7Row 201 (by simp) rfl,
   c7_csv_filter_and_sort.2 jeffersonGrid _ rfl⟩

/-! ## Claim C1: the allow-list invariant of the statewide table -/

/-- Rows surviving the Normalizer (then the column selection) carry an
allow-listed office. -/
theorem normalize_select_valid {t : List WRow} :
    ∀ r ∈ (normalizeOfficesAndCandidates t).map selectOutput,
      cellValidOffice r.office = true := by
  intro r hr
  rw [List.mem_map] at hr
  obtain ⟨w, hw, he⟩ := hr
  subst he
  exact (mem_normalize hw).1

theorem ct_valid {g : List (List Cell)} {t : List OutRow}
    (h : process_contest_title_excel_file g = Except.ok t) :
    ∀ r ∈ t, cellValidOffice r.office = true := by
  cases g with
  | nil => cases h
  | cons header rest =>
    simp only [process_contest_title_excel_file] at h
    split at h
    · split at h
      · injection h with h
        subst h
        exact normalize_select_valid
      · cases h
    · cases h

theorem blank_valid {g : List (List Cell)} {t : List OutRow}
    (h : process_blank_header_excel_file g = Except.ok t) :
    ∀ r ∈ t, cellValidOffice r.office = true := by
  cases g with
  | nil => cases h
  | cons row0 rest =>
    simp only [process_blank_header_excel_file] at h
    split at h
    · cases h
    · split at h
      · cases h
      · split at h
        · injection h with h
          subst h
          exact normalize_select_valid
        · cases h

theorem csv_valid {g : List (List Cell)} {t : List OutRow}
    (h : process_csv_file g = Except.ok t) :
    ∀ r ∈ t, cellValidOffice r.office = true := by
  cases g with
  | nil => cases h
  | cons header dataRows =>
    simp only [process_csv_file] at h
    split at h
    · cases h
    · split at h
      · cases h
      · split at h
        · injection h with h
          subst h
          intro r hr
          rw [List.mem_map] at hr
          obtain ⟨w, hw, he⟩ := hr
          subst he
          rw [List.mem_insertionSort] at hw
          exact (mem_normalize hw).1
        · cases h

theorem excel_valid {g : List (List Cell)} {t : List OutRow}
    (h : process_excel_file g = Except.ok (some t)) :
    ∀ r ∈ t, cellValidOffice r.office = true := by
  simp only [process_excel_file] at h
  split at h
  · cases h
  · split at h
    · split at h
      · injection h with h
        injection h with h
        subst h
        apply ct_valid
        assumption
      · cases h
    · split at h
      · injection h with h
        injection h with h
        subst h
        apply blank_valid
        assumption
      · cases h
    · injection h with h
      cases h

/-- Generic invariant transfer through `dictInsert`. -/
theorem dictInsert_inv {P : OutRow → Prop} {d : List (String × List OutRow)}
    {county : String} {t : List OutRow}
    (hd : ∀ p ∈ d, ∀ r ∈ p.2, P r) (ht : ∀ r ∈ t, P r) :
    ∀ p ∈ dictInsert d county t, ∀ r ∈ p.2, P r := by
  intro p hp
  unfold dictInsert at hp
  by_cases hc : (d.any (fun q => q.1 == county)) = true
  · rw [if_pos hc] at hp
    rw [List.mem_map] at hp
    obtain ⟨q, hq, he⟩ := hp
    by_cases hq1 : (q.1 == county) = true
    · rw [if_pos hq1] at he
      subst he
      exact ht
    · rw [if_neg hq1] at he
      subst he
      exact hd q hq
  · rw [if_neg hc] at hp
    rw [List.mem_append] at hp
    rcases hp with hp | hp
    · exact hd p hp
    · rw [List.mem_singleton] at hp
      subst hp
      exact ht

/-- Generic invariant transfer through one directory step. -/
theorem directoryStep_inv {P : OutRow → Prop}
    {d d' : List (String × List OutRow)} {file : String × List (List Cell)}
    (h : directoryStep d file = Except.ok d')
    (hex : ∀ t, process_excel_file file.2 = Except.ok (some t) → ∀ r ∈ t, P r)
    (hcsv : ∀ t, process_csv_file file.2 = Except.ok t → ∀ r ∈ t, P r)
    (hd : ∀ p ∈ d, ∀ r ∈ p.2, P r) :
    ∀ p ∈ d', ∀ r ∈ p.2, P r := by
  unfold directoryStep at h
  split at h
  · rename_i county ext heq
    split at h
    · split at h
      · rename_i t hexcel
        injection h with h
        subst h
        exact dictInsert_inv hd (hex t hexcel)
      · injection h with h
        subst h
        exact hd
      · cases h
    · split at h
      · split at h
        · rename_i t hcsvok
          injection h with h
          subst h
          exact dictInsert_inv hd (hcsv t hcsvok)
        · cases h
      · injection h with h
        subst h
        exact hd
  · injection h with h
    subst h
    exact hd

/-- Generic invariant transfer through the directory fold. -/
theorem directory_fold_inv {P : OutRow → Prop} :
    ∀ (files : List (String × List (List Cell)))
      (d d' : List (String × List OutRow)),
    files.foldlM directoryStep d = Except.ok d' →
    (∀ file ∈ files, ∀ t, process_excel_file file.2 = Except.ok (some t) →
      ∀ r ∈ t, P r) →
    (∀ file ∈ files, ∀ t, process_csv_file file.2 = Except.ok t →
      ∀ r ∈ t, P r) →
    (∀ p ∈ d, ∀ r ∈ p.2, P r) →
    (∀ p ∈ d', ∀ r ∈ p.2, P r) := by
  intro files
  induction files with
  | nil =>
    intro d d' h _ _ hd
    injection h with h
    subst h
    exact hd
  | cons file fs ih =>
    intro d d' h hex hcsv hd
    rw [List.foldlM_cons] at h
    cases hstep : directoryStep d file with
    | ok d1 =>
      rw [hstep] at h
      have h1 : fs.foldlM directoryStep d1 = Except.ok d' := h
      exact ih d1 d' h1
        (fun f hf => hex f (by simp [hf]))
        (fun f hf => hcsv f (by simp [hf]))
        (directoryStep_inv hstep
          (hex file (by simp))
          (hcsv file (by simp)) hd)
    | error e =>
      rw [hstep] at h
      cases h

/-- Generic per-row invariant of the statewide output. -/
theorem directory_rows_inv {P : OutRow → Prop} {Q : SRow → Prop}
    (htag : ∀ county r, P r → Q (tagCounty county r))
    {files : List (String × List (List Cell))} {out : List SRow}
    (h : process_election_directory files = Except.ok out)
    (hex : ∀ file ∈ files, ∀ t, process_excel_file file.2 = Except.ok (some t) →
      ∀ r ∈ t, P r)
    (hcsv : ∀ file ∈ files, ∀ t, process_csv_file file.2 = Except.ok t →
      ∀ r ∈ t, P r) :
    ∀ r ∈ out, Q r := by
  unfold process_election_directory at h
  cases hfold : files.foldlM directoryStep [] with
  | ok d =>
    rw [hfold] at h
    have h2 : (if d.isEmpty = true then
        (Except.error "ValueError: No objects to concatenate" :
          Except String (List SRow))
      else Except.ok (d.flatMap (fun p => p.2.map (tagCounty p.1)))) =
        Except.ok out := h
    by_cases hie : d.isEmpty = true
    · rw [if_pos hie] at h2
      cases h2
    · rw [if_neg hie] at h2
      injection h2 with h2
      subst h2
      intro r hr
      rw [List.mem_flatMap] at hr
      obtain ⟨p, hp, hr⟩ := hr
      rw [List.mem_map] at hr
      obtain ⟨q, hq, he⟩ := hr
      subst he
      exact htag p.1 q
        (directory_fold_inv files [] d hfold hex hcsv (by simp) p hp q hq)
  | error e =>
    rw [hfold] at h
    cases h

/-- C1: every row of the statewide table written by a completed run carries
an office from the fixed 10-name allow-list: each of the three reshape paths
ends in `normalizeOfficesAndCandidates`, whose filter drops every row whose
office is outside `valid_offices`, before the county table is stored. -/
theorem c1_allowlist_invariant
    {files : List (String × List (List Cell))} {out : List SRow}
    (h : process_election_directory files = Except.ok out) :
    ∀ r ∈ out, ∃ o : String, r.office = Cell.s o ∧ o ∈ valid_offices := by
  have hall : ∀ r ∈ out, cellValidOffice r.office = true :=
    @directory_rows_inv (fun r => cellValidOffice r.office = true)
      (fun sr => cellValidOffice sr.office = true)
      (fun _ _ hr => hr) files out h
      (fun _ _ _ ht => excel_valid ht)
      (fun _ _ _ ht => csv_valid ht)
  intro r hr
  have hv := hall r hr
  cases ho : r.office with
  | s o =>
    refine ⟨o, rfl, ?_⟩
    rw [ho] at hv
    simpa [cellValidOffice] using hv
  | na => rw [ho] at hv; simp [cellValidOffice] at hv
  | num n => rw [ho] at hv; simp [cellValidOffice] at hv

/-- Witness for C1 on a concrete completed run. -/
theorem c1_allowlist_invariant_witness :
    ∃ o : String,
      (⟨"Jefferson", Cell.s "Ward 1", Cell.s "U.S. Senate", Cell.na,
        Cell.s "D", Cell.s "Jane Doe", Cell.num 150⟩ : SRow).office =
        Cell.s o ∧ o ∈ valid_offices :=
  @c1_allowlist_invariant [("2016-General-Jefferson.csv", jeffersonGrid)]
    [⟨"Jefferson", Cell.s "Ward 1", Cell.s "U.S. Senate", Cell.na, Cell.s "D",
      Cell.s "Jane Doe", Cell.num 150⟩] rfl
    ⟨"Jefferson", Cell.s "Ward 1", Cell.s "U.S. Senate", Cell.na, Cell.s "D",
      Cell.s "Jane Doe", Cell.num 150⟩ (by simp)

/-! ## Claim C5: votes of the statewide table -/

/-- The cell is not a negative number (NaN and strings are unconstrained). -/
def cellNotNeg (c : Cell) : Bool :=
  match c with
  | Cell.num n => 0 ≤ n
  | _ => true

/-- No cell of the raw grid is a negative number. -/
def gridNotNeg (g : List (List Cell)) : Prop :=
  ∀ row ∈ g, ∀ c ∈ row, cellNotNeg c = true

theorem stripCell_notNeg {c : Cell} (h : cellNotNeg c = true) :
    cellNotNeg (stripCell c) = true := by
  cases c with
  | s v =>
    simp only [stripCell]
    split <;> rfl
  | na => exact h
  | num n => exact h

theorem strip_notNeg {g : List (List Cell)} (h : gridNotNeg g) :
    gridNotNeg (stripCellsDropEmptyRows g) := by
  intro row hrow c hc
  unfold stripCellsDropEmptyRows at hrow
  rw [List.mem_filter] at hrow
  obtain ⟨hrow, -⟩ := hrow
  rw [List.mem_map] at hrow
  obtain ⟨row0, hrow0, he⟩ := hrow
  subst he
  rw [List.mem_map] at hc
  obtain ⟨c0, hc0, he⟩ := hc
  subst he
  exact stripCell_notNeg (h row0 hrow0 c0 hc0)

theorem cellAt_notNeg {row : List Cell} {j : Nat}
    (h : ∀ c ∈ row, cellNotNeg c = true) : cellNotNeg (cellAt row j) = true := by
  unfold cellAt
  induction row generalizing j with
  | nil => cases j <;> rfl
  | cons c rest ih =>
    cases j with
    | zero => exact h c (by simp)
    | succ k =>
      simp only [List.getD_cons_succ]
      exact ih (fun x hx => h x (by simp [hx]))

theorem ffill_notNeg {last : Cell} {row : List Cell}
    (hlast : cellNotNeg last = true) (h : ∀ c ∈ row, cellNotNeg c = true) :
    ∀ c ∈ ffillRow last row, cellNotNeg c = true := by
  induction row generalizing last with
  | nil => intro c hc; cases hc
  | cons c rest ih =>
    intro x hx
    cases c with
    | na =>
      have he : ffillRow last (Cell.na :: rest) = last :: ffillRow last rest := rfl
      rw [he] at hx
      rcases List.mem_cons.mp hx with he2 | hx2
      · subst he2; exact hlast
      · exact ih hlast (fun y hy => h y (by simp [hy])) x hx2
    | s v =>
      have he : ffillRow last (Cell.s v :: rest)
          = Cell.s v :: ffillRow (Cell.s v) rest := rfl
      rw [he] at hx
      rcases List.mem_cons.mp hx with he2 | hx2
      · subst he2; rfl
      · exact ih (by rfl) (fun y hy => h y (by simp [hy])) x hx2
    | num n =>
      have he : ffillRow last (Cell.num n :: rest)
          = Cell.num n :: ffillRow (Cell.num n) rest := rfl
      rw [he] at hx
      rcases List.mem_cons.mp hx with he2 | hx2
      · subst he2; exact h (Cell.num n) (by simp)
      · exact ih (h (Cell.num n) (by simp)) (fun y hy => h y (by simp [hy])) x hx2

theorem transpose_notNeg {g : List (List Cell)} {w : Nat} (h : gridNotNeg g) :
    gridNotNeg (transposeGrid g w) := by
  intro row hrow c hc
  unfold transposeGrid at hrow
  rw [List.mem_map] at hrow
  obtain ⟨i, -, he⟩ := hrow
  subst he
  rw [List.mem_map] at hc
  obtain ⟨row0, hrow0, he⟩ := hc
  subst he
  exact cellAt_notNeg (h row0 hrow0)

/-! ### Transfer of a votes property through the shared stages -/

/-- Generic invariant transfer through `List.foldlM` over `Except`. -/
theorem foldlM_except_inv {α β : Type} {f : β → α → Except String β}
    {Q : β → Prop} (hf : ∀ b a b', f b a = Except.ok b' → Q b → Q b') :
    ∀ (l : List α) (b b' : β), l.foldlM f b = Except.ok b' → Q b → Q b' := by
  intro l
  induction l with
  | nil =>
    intro b b' h hb
    injection h with h
    subst h
    exact hb
  | cons a as ih =>
    intro b b' h hb
    rw [List.foldlM_cons] at h
    cases hs : f b a with
    | ok b1 =>
      rw [hs] at h
      exact ih b1 b' h (hf b a b1 hs hb)
    | error e =>
      rw [hs] at h
      cases h

/-- Generic invariant transfer through `List.foldl`. -/
theorem foldl_inv {α β : Type} {f : β → α → β} {Q : β → Prop}
    (hf : ∀ b a, Q b → Q (f b a)) :
    ∀ (l : List α) (b : β), Q b → Q (l.foldl f b) := by
  intro l
  induction l with
  | nil => intro b hb; exact hb
  | cons a as ih =>
    intro b hb
    rw [List.foldl_cons]
    exact ih (f b a) (hf b a hb)

theorem populateStep_votes {P : Cell → Prop} {t t' : List WRow} {contest : Cell}
    (h : populateStep t contest = Except.ok t') (ht : ∀ r ∈ t, P r.votes) :
    ∀ r ∈ t', P r.votes := by
  unfold populateStep at h
  split at h
  · split at h
    · injection h with h
      subst h
      intro r hr
      rw [List.mem_map] at hr
      obtain ⟨w, hw, he⟩ := hr
      subst he
      split
      · exact ht w hw
      · exact ht w hw
    · injection h with h
      subst h
      exact ht
  · cases h

theorem populate_votes {P : Cell → Prop} {t t' : List WRow}
    (h : populateOfficesAndDistricts t = Except.ok t')
    (ht : ∀ r ∈ t, P r.votes) : ∀ r ∈ t', P r.votes := by
  unfold populateOfficesAndDistricts at h
  refine foldlM_except_inv (fun b a b' hs hb => populateStep_votes hs hb) _ _ _ h ?_
  intro r hr
  rw [List.mem_map] at hr
  obtain ⟨w, hw, he⟩ := hr
  subst he
  exact ht w hw

theorem normalize_votes {P : Cell → Prop} {t : List WRow}
    (ht : ∀ r ∈ t, P r.votes) :
    ∀ r ∈ normalizeOfficesAndCandidates t, P r.votes := by
  intro r hr
  simp only [normalizeOfficesAndCandidates, List.mem_map, List.mem_filter] at hr
  obtain ⟨r'', ⟨⟨r0, hr0, he0⟩, -⟩, he⟩ := hr
  subst he
  subst he0
  exact ht r0 hr0

theorem blankContestStep_votes {P : Cell → Prop} {t : List WRow} {contest : Cell}
    (ht : ∀ r ∈ t, P r.votes) : ∀ r ∈ blankContestStep t contest, P r.votes := by
  unfold blankContestStep
  split
  · split
    · intro r hr
      rw [List.mem_map] at hr
      obtain ⟨w, hw, he⟩ := hr
      subst he
      split
      · exact ht w hw
      · exact ht w hw
    · exact ht
  · exact ht

theorem blankCandidateStep_votes {P : Cell → Prop} {t t' : List WRow}
    {origCandidate : Cell} (h : blankCandidateStep t origCandidate = Except.ok t')
    (ht : ∀ r ∈ t, P r.votes) : ∀ r ∈ t', P r.votes := by
  unfold blankCandidateStep at h
  split at h
  · injection h with h
    subst h
    intro r hr
    rw [List.mem_map] at hr
    obtain ⟨w, hw, he⟩ := hr
    subst he
    split
    · exact ht w hw
    · exact ht w hw
  · injection h with h
    subst h
    exact ht
  · cases h

theorem renameTotals_votes {P : Cell → Prop} {t : List WRow}
    (ht : ∀ r ∈ t, P r.votes) :
    ∀ r ∈ renameCalculatedTotals t, P r.votes := by
  intro r hr
  unfold renameCalculatedTotals at hr
  rw [List.mem_map] at hr
  obtain ⟨w, hw, he⟩ := hr
  subst he
  split
  · exact ht w hw
  · exact ht w hw

/-- Rows surviving the NaN-votes drop have non-NaN votes. -/
theorem filter_votes_ne {t : List WRow} :
    ∀ r ∈ t.filter (fun r => r.votes ≠ Cell.na), r.votes ≠ Cell.na := by
  intro r hr
  rw [List.mem_filter] at hr
  exact of_decide_eq_true hr.2

theorem meltCT_notNeg {rows : List (List Cell)} {h0 : List Cell}
    {ctIdx pIdx cIdx : Nat}
    (hrows : ∀ row ∈ rows, ∀ c ∈ row, cellNotNeg c = true) :
    ∀ r ∈ meltContestTitle h0 rows ctIdx pIdx cIdx,
      cellNotNeg r.votes = true := by
  intro r hr
  unfold meltContestTitle at hr
  rw [List.mem_flatMap] at hr
  obtain ⟨j, -, hr⟩ := hr
  rw [List.mem_map] at hr
  obtain ⟨row, hrow, he⟩ := hr
  subst he
  exact cellAt_notNeg (hrows row hrow)

/-- The Contest-Title reshaper never stores a NaN-votes row (the
`dropna(subset=['votes'])` on line 178). -/
theorem ct_votes_ne {g : List (List Cell)} {t : List OutRow}
    (h : process_contest_title_excel_file g = Except.ok t) :
    ∀ r ∈ t, r.votes ≠ Cell.na := by
  cases g with
  | nil => cases h
  | cons header rest =>
    simp only [process_contest_title_excel_file] at h
    split at h
    · split at h
      · rename_i populated hpop
        injection h with h
        subst h
        intro r hr
        rw [List.mem_map] at hr
        obtain ⟨w, hw, he⟩ := hr
        subst he
        show w.votes ≠ Cell.na
        exact @normalize_votes (fun c => c ≠ Cell.na) _
          (@populate_votes (fun c => c ≠ Cell.na) _ _ hpop filter_votes_ne) w hw
      · cases h
    · cases h

/-- All votes stored by the Contest-Title reshaper come from grid cells, so
a grid without negative numbers yields no negative votes. -/
theorem ct_votes_notNeg {g : List (List Cell)} {t : List OutRow}
    (h : process_contest_title_excel_file g = Except.ok t)
    (hg : gridNotNeg g) : ∀ r ∈ t, cellNotNeg r.votes = true := by
  cases g with
  | nil => cases h
  | cons header rest =>
    simp only [process_contest_title_excel_file] at h
    split at h
    · split at h
      · rename_i populated hpop
        injection h with h
        subst h
        intro r hr
        rw [List.mem_map] at hr
        obtain ⟨w, hw, he⟩ := hr
        subst he
        show cellNotNeg w.votes = true
        refine @normalize_votes (fun c => cellNotNeg c = true) _
          (@populate_votes (fun c => cellNotNeg c = true) _ _ hpop ?_) w hw
        intro r' hr'
        rw [List.mem_filter] at hr'
        exact meltCT_notNeg hg r' hr'.1
      · cases h
    · cases h

/-- The Blank-Header reshaper never stores a NaN-votes row (the
`dropna(subset=['votes'])` on line 210). -/
theorem blank_votes_ne {g : List (List Cell)} {t : List OutRow}
    (h : process_blank_header_excel_file g = Except.ok t) :
    ∀ r ∈ t, r.votes ≠ Cell.na := by
  cases g with
  | nil => cases h
  | cons row0 rest =>
    simp only [process_blank_header_excel_file] at h
    split at h
    · cases h
    · split at h
      · cases h
      · split at h
        · rename_i afterCandidates hcand
          injection h with h
          subst h
          intro r hr
          rw [List.mem_map] at hr
          obtain ⟨w, hw, he⟩ := hr
          subst he
          show w.votes ≠ Cell.na
          refine @normalize_votes (fun c => c ≠ Cell.na) _
            (@renameTotals_votes (fun c => c ≠ Cell.na) _ ?_) w hw
          refine @foldlM_except_inv Cell (List WRow) _
            (fun t => ∀ r ∈ t, r.votes ≠ Cell.na)
            (fun b a b' hs hb =>
              @blankCandidateStep_votes (fun c => c ≠ Cell.na) _ _ _ hs hb)
            _ _ _ hcand ?_
          refine @foldl_inv Cell (List WRow) _
            (fun t => ∀ r ∈ t, r.votes ≠ Cell.na)
            (fun b a hb =>
              @blankContestStep_votes (fun c => c ≠ Cell.na) _ _ hb) _ _ ?_
          exact filter_votes_ne
        · cases h

/-- All votes stored by the Blank-Header reshaper come from grid cells (via
the forward fill and the transpose), so a grid without negative numbers
yields no negative votes. -/
theorem blank_votes_notNeg {g : List (List Cell)} {t : List OutRow}
    (h : process_blank_header_excel_file g = Except.ok t)
    (hg : gridNotNeg g) : ∀ r ∈ t, cellNotNeg r.votes = true := by
  cases g with
  | nil => cases h
  | cons row0 rest =>
    have hGnn : gridNotNeg (ffillRow Cell.na row0 :: rest) := by
      intro row hrow c hc
      rcases List.mem_cons.mp hrow with he | hrow2
      · subst he
        exact ffill_notNeg (by rfl) (hg row0 (by simp)) c hc
      · exact hg row (by simp [hrow2]) c hc
    have hTnn : gridNotNeg (transposeGrid (ffillRow Cell.na row0 :: rest)
        (gridWidth (ffillRow Cell.na row0 :: rest))) := transpose_notNeg hGnn
    simp only [process_blank_header_excel_file] at h
    split at h
    · cases h
    · split at h
      · cases h
      · rename_i hlen t0 dataRows hT
        split at h
        · rename_i afterCandidates hcand
          injection h with h
          subst h
          intro r hr
          rw [List.mem_map] at hr
          obtain ⟨w, hw, he⟩ := hr
          subst he
          show cellNotNeg w.votes = true
          refine @normalize_votes (fun c => cellNotNeg c = true) _
            (@renameTotals_votes (fun c => cellNotNeg c = true) _ ?_) w hw
          refine @foldlM_except_inv Cell (List WRow) _
            (fun t => ∀ r ∈ t, cellNotNeg r.votes = true)
            (fun b a b' hs hb =>
              @blankCandidateStep_votes (fun c => cellNotNeg c = true) _ _ _ hs hb)
            _ _ _ hcand ?_
          refine @foldl_inv Cell (List WRow) _
            (fun t => ∀ r ∈ t, cellNotNeg r.votes = true)
            (fun b a hb =>
              @blankContestStep_votes (fun c => cellNotNeg c = true) _ _ hb) _ _ ?_
          intro r' hr'
          rw [List.mem_filter] at hr'
          have hr'' := hr'.1
          rw [List.mem_flatMap] at hr''
          obtain ⟨j, -, hr''⟩ := hr''
          rw [List.mem_map] at hr''
          obtain ⟨row, hrow, he⟩ := hr''
          subst he
          refine cellAt_notNeg ?_
          intro c hc
          have hrowT : row ∈ transposeGrid (ffillRow Cell.na row0 :: rest)
              (gridWidth (ffillRow Cell.na row0 :: rest)) := by
            rw [hT]
            exact List.mem_cons_of_mem _ hrow
          exact hTnn row hrowT c hc
        · cases h

/-- All votes stored by the CSV reshaper come from (stripped) grid cells, so
a grid without negative numbers yields no negative votes.  (There is NO
NaN-votes drop on this path.) -/
theorem csv_votes_notNeg {g : List (List Cell)} {t : List OutRow}
    (h : process_csv_file g = Except.ok t) (hg : gridNotNeg g) :
    ∀ r ∈ t, cellNotNeg r.votes = true := by
  cases g with
  | nil => cases h
  | cons header dataRows =>
    simp only [process_csv_file] at h
    split at h
    · cases h
    · split at h
      · cases h
      · split at h
        · rename_i populated hpop
          injection h with h
          subst h
          intro r hr
          rw [List.mem_map] at hr
          obtain ⟨w, hw, he⟩ := hr
          subst he
          rw [List.mem_insertionSort] at hw
          show cellNotNeg w.votes = true
          refine @normalize_votes (fun c => cellNotNeg c = true) _
            (@populate_votes (fun c => cellNotNeg c = true) _ _ hpop ?_) w hw
          intro r' hr'
          rw [List.mem_map] at hr'
          obtain ⟨cr, hcr, he⟩ := hr'
          subst he
          unfold csvContestFilter at hcr
          rw [List.mem_filter] at hcr
          have hcr1 := hcr.1
          unfold stripCsvRows at hcr1
          rw [List.mem_filter] at hcr1
          have hcr2 := hcr1.1
          rw [List.mem_map] at hcr2
          obtain ⟨r0, hr0, he⟩ := hcr2
          subst he
          rw [List.mem_map] at hr0
          obtain ⟨row, hrow, he⟩ := hr0
          subst he
          exact stripCell_notNeg
            (cellAt_notNeg (hg row (List.mem_cons_of_mem _ hrow)))
        · cases h

theorem excel_votes_ne {g : List (List Cell)} {t : List OutRow}
    (h : process_excel_file g = Except.ok (some t)) :
    ∀ r ∈ t, r.votes ≠ Cell.na := by
  simp only [process_excel_file] at h
  split at h
  · cases h
  · split at h
    · split at h
      · injection h with h
        injection h with h
        subst h
        apply ct_votes_ne
        assumption
      · cases h
    · split at h
      · injection h with h
        injection h with h
        subst h
        apply blank_votes_ne
        assumption
      · cases h
    · injection h with h
      cases h

theorem excel_votes_notNeg {g : List (List Cell)} {t : List OutRow}
    (h : process_excel_file g = Except.ok (some t)) (hg : gridNotNeg g) :
    ∀ r ∈ t, cellNotNeg r.votes = true := by
  have hg2 : gridNotNeg (stripCellsDropEmptyRows g) := strip_notNeg hg
  simp only [process_excel_file] at h
  split at h
  · cases h
  · split at h
    · split at h
      · injection h with h
        injection h with h
        subst h
        apply ct_votes_notNeg _ hg2
        assumption
      · cases h
    · split at h
      · injection h with h
        injection h with h
        subst h
        apply blank_votes_notNeg _ hg2
        assumption
      · cases h
    · injection h with h
      cases h

/-- A CSV file whose two data rows carry votes `-5` and a blank (NaN) votes
cell; both contests are statewide, so both rows survive to the output. -/
def c5Grid : List (List Cell) :=
  [[Cell.s "county", Cell.s "election_date", Cell.s "contest_number",
    Cell.s "candidate_number", Cell.s "votes", Cell.s "party",
    Cell.s "contest_title", Cell.s "candidate", Cell.s "precinct",
    Cell.s "district_name"],
   [Cell.s "X", Cell.na, Cell.num 201, Cell.na, Cell.num (-5), Cell.s "D",
    Cell.s "United States Senator", Cell.s "A", Cell.s "P1", Cell.na],
   [Cell.s "X", Cell.na, Cell.num 202, Cell.na, Cell.na, Cell.s "R",
    Cell.s "United States Senator", Cell.s "B", Cell.s "P2", Cell.na]]

/-- C5 as stated is false on the code: the CSV path has no NaN-votes drop and
no path checks a sign, so a completed run can write a statewide table holding
a row with votes `-5` (not a nonnegative integer) and a row whose votes cell
was missing in the source. -/
theorem c5_counterexample :
    process_election_directory [("2016-General-X.csv", c5Grid)] =
      Except.ok
        [{ county := "X", precinct := Cell.s "P1",
           office := Cell.s "U.S. Senate", district := Cell.na,
           party := Cell.s "D", candidate := Cell.s "A",
           votes := Cell.num (-5) },
         { county := "X", precinct := Cell.s "P2",
           office := Cell.s "U.S. Senate", district := Cell.na,
           party := Cell.s "R", candidate := Cell.s "B",
           votes := Cell.na }] ∧
    ¬ ((0 : Int) ≤ -5) := by
  exact ⟨rfl, by decide⟩

/-- A contest-title sheet with one precinct column, used as the C5 witness. -/
def ctGrid : List (List Cell) :=
  [[Cell.s "Contest Title", Cell.s "Party", Cell.s "Candidate",
    Cell.s "Ward 1"],
   [Cell.s "United States Senator", Cell.s "D", Cell.s "Jane Doe",
    Cell.num 150]]

/-- C5 amended: the two Excel reshapers drop NaN-votes rows before storing
(so no spreadsheet-sourced output row has missing votes — the CSV path
performs no such drop), and when no cell of any source grid is a negative
number, no row of the statewide table carries a negative votes value. -/
theorem c5_votes_amended :
    (∀ (g : List (List Cell)) (t : List OutRow),
      process_excel_file g = Except.ok (some t) → ∀ r ∈ t, r.votes ≠ Cell.na) ∧
    (∀ (files : List (String × List (List Cell))) (out : List SRow),
      process_election_directory files = Except.ok out →
      (∀ file ∈ files, gridNotNeg file.2) →
      ∀ r ∈ out, cellNotNeg r.votes = true) := by
  constructor
  · intro g t h
    exact excel_votes_ne h
  · intro files out h hg
    exact @directory_rows_inv (fun r => cellNotNeg r.votes = true)
      (fun sr => cellNotNeg sr.votes = true)
      (fun _ _ hr => hr) files out h
      (fun file hf t ht => excel_votes_notNeg ht (hg file hf))
      (fun file hf t ht => csv_votes_notNeg ht (hg file hf))

/-- Witness for C5 (amended) at concrete inputs with the hypotheses
discharged. -/
theorem c5_votes_amended_witness :
    (⟨Cell.s "Ward 1", Cell.s "U.S. Senate", Cell.na, Cell.s "D",
      Cell.s "Jane Doe", Cell.num 150⟩ : OutRow).votes ≠ Cell.na ∧
    cellNotNeg (⟨"Jefferson", Cell.s "Ward 1", Cell.s "U.S. Senate", Cell.na,
      Cell.s "D", Cell.s "Jane Doe", Cell.num 150⟩ : SRow).votes = true :=
  ⟨c5_votes_amended.1 ctGrid
     [⟨Cell.s "Ward 1", Cell.s "U.S. Senate", Cell.na, Cell.s "D",
       Cell.s "Jane Doe", Cell.num 150⟩] rfl
     ⟨Cell.s "Ward 1", Cell.s "U.S. Senate", Cell.na, Cell.s "D",
       Cell.s "Jane Doe", Cell.num 150⟩ (by simp),
   c5_votes_amended.2 [("2016-General-Jefferson.csv", jeffersonGrid)]
     [⟨"Jefferson", Cell.s "Ward 1", Cell.s "U.S. Senate", Cell.na,
       Cell.s "D", Cell.s "Jane Doe", Cell.num 150⟩] rfl
     (by
       intro file hf
       rw [List.mem_singleton] at hf
       subst hf
       show ∀ row ∈ jeffersonGrid, ∀ c ∈ row, cellNotNeg c = true
       decide)
     ⟨"Jefferson", Cell.s "Ward 1", Cell.s "U.S. Senate", Cell.na,
       Cell.s "D", Cell.s "Jane Doe", Cell.num 150⟩ (by simp)⟩
